import Mathlib

/-!
# Local-network file transfer server: the file registry of `backend/index.js`

A shallow embedding of the Express handlers of `backend/index.js` (list, upload,
download, delete, delete-all) and of the periodic expiry sweeper, over an explicit
model of the file system they act on; of the network detection of the server
and of `scripts/configure-network.js`; and of the client's event listeners
(`FileList.jsx`), its `SocketService` and `getNetworkQuality`.

Conventions of the embedding

* A path is absolute and normalised: the list of its segments below the root
  (POSIX separators, as `path.join` produces them on a POSIX host).
* The file system is a list of regular files in directory-enumeration order.
  The Storage Directory is flat, so sub-directories carry no entry of their own.
* Times are integral milliseconds, as `Date.now()` returns them.
* `fs.unlink`, `fs.stat` and `fs.readdir` are asynchronous in the source: a handler
  first runs its synchronous body, and the completion callbacks run afterwards.
  Each handler below says where that matters.
-/

namespace FileTransfer

/-! ## File system -/

/-- Absolute normalised path: the segments below the root. -/
abbrev Path := List String

/-- One regular file. `locked` stands for any condition under which `unlink`
on the file fails although it exists (EPERM, EBUSY). -/
structure File where
  content : List Nat
  mtimeMs : Nat
  birthtimeMs : Nat
  locked : Bool
deriving DecidableEq, Repr

/-- The file system: regular files in enumeration order, and the directories
whose enumeration fails. -/
structure FS where
  files : List (Path × File)
  unreadable : List Path
deriving DecidableEq, Repr

/-- What `fs.stat` reports of a file. -/
structure Stats where
  size : Nat
  mtimeMs : Nat
  birthtimeMs : Nat
deriving DecidableEq, Repr

/-- The file stored at a path, if any. -/
def FS.lookup (fs : FS) (p : Path) : Option File :=
  (fs.files.find? (fun e => decide (e.1 = p))).map Prod.snd

/-! ## `path.join` -/

/-- Cut a string at every `/`. -/
def splitSlash : List Char → List (List Char)
  | [] => [[]]
  | c :: cs =>
    if c = '/' then [] :: splitSlash cs
    else
      match splitSlash cs with
      | [] => [[c]]
      | seg :: rest => (c :: seg) :: rest

/-- The `/`-separated segments of a client-supplied name. -/
def segments (name : String) : List String :=
  (splitSlash name.data).map String.mk

/-- Normalisation of an absolute path, one segment at a time: empty and `.`
segments are dropped, `..` removes the last segment kept so far (and is dropped
at the root), any other segment is kept. -/
def normalizeString (acc : Path) : List String → Path
  | [] => acc
  | s :: rest =>
    if s = "" ∨ s = "." then normalizeString acc rest
    else if s = ".." then normalizeString acc.dropLast rest
    else normalizeString (acc ++ [s]) rest

/-- A joined path: its normalised segments, and whether the joined string ended
in a separator (then it can only name a directory). -/
structure ResolvedPath where
  segs : Path
  trailingSlash : Bool
deriving DecidableEq, Repr

/-- The call `path.join(dir, name)` for an absolute normalised `dir`. -/
def pathJoin (dir : Path) (name : String) : ResolvedPath :=
  { segs := normalizeString dir (segments name)
    trailingSlash := decide (name.data.getLast? = some '/') }

/-- The directory `__dirname/uploads` of line 97. -/
def uploadDirectory (dirname : Path) : Path :=
  normalizeString dirname ["uploads"]

/-! ## The `fs` calls the handlers use -/

/-- The regular file a joined path names. -/
def fileAt (fs : FS) (rp : ResolvedPath) : Option File :=
  if rp.trailingSlash then none else fs.lookup rp.segs

/-- The call `fs.unlink`: `none` is the error callback, `some` the file system
after the removal. -/
def unlink (fs : FS) (rp : ResolvedPath) : Option FS :=
  match fileAt fs rp with
  | none => none
  | some f =>
    if f.locked then none
    else some { fs with files := fs.files.filter (fun e => decide (e.1 ≠ rp.segs)) }

/-- The call `fs.stat` / `fs.statSync`: `none` is the error (the exception, for
`statSync`). -/
def stat (fs : FS) (rp : ResolvedPath) : Option Stats :=
  (fileAt fs rp).map (fun f =>
    { size := f.content.length, mtimeMs := f.mtimeMs, birthtimeMs := f.birthtimeMs })

/-- The name of `p` inside `dir`, when `p` lies directly in `dir`. -/
def childName (dir p : Path) : Option String :=
  if p.dropLast = dir then p.getLast? else none

/-- The call `fs.readdir`: `none` is the error callback, `some` the names of the
entries of the directory in enumeration order. -/
def readdir (fs : FS) (dir : Path) : Option (List String) :=
  if dir ∈ fs.unreadable then none
  else some (fs.files.filterMap (fun e => childName dir e.1))

/-! ## Responses and events -/

/-- A record of the listing (lines 185-192). -/
structure ListRecord where
  id : Nat
  name : String
  size : Nat
  uploadDate : Nat
  type : String
  url : String
deriving DecidableEq, Repr

/-- A record of an upload (lines 209-219 and 238-248). -/
structure UploadRecord where
  id : Nat
  name : String
  originalName : String
  size : Nat
  type : String
  timeStamp : Nat
  uploadDate : Nat
  url : String
  isEncrypted : Bool
deriving DecidableEq, Repr

/-- The events the server emits to every connected client with `io.emit`. -/
inductive Event where
  | fileUploaded (filePath : UploadRecord)
  | filesUploaded (filePaths : List UploadRecord)
  | fileDeleted (filename : String)
  | allFilesDeleted
deriving DecidableEq, Repr

/-- The body of a response. -/
inductive Body where
  | error (error : String)
  | message (message : String)
  | fileList (records : List ListRecord)
  | uploaded (message : String) (filePath : UploadRecord)
  | uploadedMany (message : String) (filePaths : List UploadRecord)
  | attachment (filename : String) (content : List Nat)
deriving DecidableEq, Repr

/-- A response: status code and body. -/
structure Response where
  status : Nat
  body : Body
deriving DecidableEq, Repr

/-- What running a handler to completion (its deferred callbacks included)
leaves behind: the file system, the events emitted in order, and the response.
The response is `none` when an exception escapes the handler and nothing is
sent. -/
structure Outcome where
  fs : FS
  events : List Event
  response : Option Response
deriving DecidableEq, Repr

/-! ## Listing: `app.get("/api/files")`, lines 175-200 -/

/-- The loop `files.map((file, index) => ...)` of lines 182-193, from position
`index` on. `none`: a `statSync` threw, which aborts the whole `map`. -/
def fileRecords (fs : FS) (dir : Path) : Nat → List String → Option (List ListRecord)
  | _, [] => some []
  | index, file :: rest =>
    match stat fs (pathJoin dir file) with
    | none => none
    | some stats =>
      (fileRecords fs dir (index + 1) rest).map (fun l =>
        { id := index + 1
          name := file
          size := stats.size
          uploadDate := stats.birthtimeMs
          type := "application/octet-stream"
          url := "/uploads/" ++ file } :: l)

/-- The callback handed to `fs.readdir` in lines 177-195, run on the enumeration
result `r` against the file system as it is when the callback runs. The callback
runs outside the `try` of line 176, so an exception of `statSync` escapes. -/
def getFilesCallback (dirname : Path) (r : Option (List String)) (fs : FS) : Outcome :=
  match r with
  | none =>
    { fs := fs, events := [], response := some ⟨500, Body.error "Internal server error"⟩ }
  | some files =>
    match fileRecords fs (uploadDirectory dirname) 0 files with
    | none => { fs := fs, events := [], response := none }
    | some fileList => { fs := fs, events := [], response := some ⟨200, Body.fileList fileList⟩ }

/-- The handler of `GET /api/files` with no change of the directory between the
enumeration and its callback. -/
def getFiles (dirname : Path) (fs : FS) : Outcome :=
  getFilesCallback dirname (readdir fs (uploadDirectory dirname)) fs

/-! ## Upload: `multer.diskStorage` (lines 119-136) and `app.post("/api/upload")` -/

/-- A file part of a multipart request, as multer hands it to the storage. -/
structure FilePart where
  originalname : String
  mimetype : String
  bytes : List Nat
deriving DecidableEq, Repr

/-- The entry `req.file` after the storage has written the part. -/
structure MulterFile where
  filename : String
  originalname : String
  mimetype : String
  size : Nat
deriving DecidableEq, Repr

/-- The clock readings of one upload, in the order they are taken: `Date.now()`
of line 124, the time the write ends (the file's timestamps), `Date.now()` of
line 210, and the two `new Date()` of lines 215 and 216. -/
structure UploadClock where
  nameTime : Nat
  writeTime : Nat
  idTime : Nat
  stampTime : Nat
  dateTime : Nat
deriving DecidableEq, Repr

/-- The `filename` callback of lines 123-125: `Date.now() + "-" + file.originalname`. -/
def filename (now : Nat) (originalname : String) : String :=
  toString now ++ "-" ++ originalname

/-- The size limit of line 131. -/
def fileSize : Nat := 4 * 1024 * 1024 * 1024

/-- Writing a file through `fs.createWriteStream`: an existing file at the path
is truncated and rewritten in place, a new one is added at the end of the
enumeration. `none`: the path cannot name a regular file. -/
def writeFile (fs : FS) (rp : ResolvedPath) (bytes : List Nat) (now : Nat) : Option FS :=
  if rp.trailingSlash then none
  else
    match fs.lookup rp.segs with
    | some _ =>
      some { fs with files := fs.files.map (fun e =>
        if e.1 = rp.segs then (e.1, { e.2 with content := bytes, mtimeMs := now }) else e) }
    | none =>
      some { fs with files := fs.files ++
        [(rp.segs, { content := bytes, mtimeMs := now, birthtimeMs := now, locked := false })] }

/-- The disk storage of lines 119-126 under the limits of lines 130-132: the part
is written to `uploadDirectory/filename`; a part over the size limit, or a
failed write, leaves no file and is an error. -/
def diskStorage (dirname : Path) (clock : UploadClock) (file : FilePart) (fs : FS) :
    Option (FS × MulterFile) :=
  if file.bytes.length > fileSize then none
  else
    let name := filename clock.nameTime file.originalname
    match writeFile fs (pathJoin (uploadDirectory dirname) name) file.bytes clock.writeTime with
    | none => none
    | some fs' =>
      some (fs', { filename := name, originalname := file.originalname,
                   mimetype := file.mimetype, size := file.bytes.length })

/-- The handler of `POST /api/upload`, lines 203-229, behind `upload.single("file")`.
`file` is the part named `file` of the request, `isEncrypted` the form field
`req.body.isEncrypted`. An error of the storage never reaches the handler: the
framework answers it with status 500. -/
def postUpload (dirname : Path) (clock : UploadClock) (file : Option FilePart)
    (isEncrypted : Option String) (fs : FS) : Outcome :=
  match file with
  | none => { fs := fs, events := [], response := some ⟨400, Body.error "No file uploaded"⟩ }
  | some part =>
    match diskStorage dirname clock part fs with
    | none =>
      { fs := fs, events := [], response := some ⟨500, Body.error "Internal Server Error"⟩ }
    | some (fs', reqFile) =>
      let filePath : UploadRecord :=
        { id := clock.idTime
          name := reqFile.filename
          originalName := reqFile.originalname
          size := reqFile.size
          type := reqFile.mimetype
          timeStamp := clock.stampTime
          uploadDate := clock.dateTime
          url := "/uploads/" ++ reqFile.filename
          isEncrypted := decide (isEncrypted = some "true") }
      { fs := fs'
        events := [Event.fileUploaded filePath]
        response := some ⟨200, Body.uploaded "File uploaded successfully" filePath⟩ }

/-! ## Download and delete: lines 260-297 -/

/-- The handler of `GET /api/download/:filename`, lines 261-276. `res.download`
resolves the joined path (a trailing separator is lost) and streams the regular
file there; when there is none its callback answers 404. The framework's policy
for names that start with a dot is not modelled: no stored name starts with
one. -/
def getDownload (dirname : Path) (name : String) (fs : FS) : Outcome :=
  let filePath := pathJoin (uploadDirectory dirname) name
  match fs.lookup filePath.segs with
  | some f => { fs := fs, events := [], response := some ⟨200, Body.attachment name f.content⟩ }
  | none => { fs := fs, events := [], response := some ⟨404, Body.error "File not found"⟩ }

/-- The handler of `DELETE /api/delete/:filename`, lines 279-297. -/
def deleteFile (dirname : Path) (name : String) (fs : FS) : Outcome :=
  let filePath := pathJoin (uploadDirectory dirname) name
  match unlink fs filePath with
  | none =>
    { fs := fs, events := [], response := some ⟨500, Body.error "Internal server error"⟩ }
  | some fs' =>
    { fs := fs'
      events := [Event.fileDeleted name]
      response := some ⟨200, Body.message "File deleted successfully"⟩ }

/-! ## Expiry sweeper: lines 299-314 -/

/-- The lifetime of line 300, in milliseconds. -/
def FILE_LIFETIME_MS : Nat := 60 * 60 * 1000

/-- The state a sweep threads through its callbacks: the file system and the
events emitted so far. -/
structure Tick where
  fs : FS
  events : List Event
deriving DecidableEq, Repr

/-- The body of `files.forEach` in lines 304-312 for one entry, with its `stat`
and `unlink` callbacks: `now` is what `Date.now()` returns in the `stat`
callback of this entry. -/
def sweepFile (dirname : Path) (now : Nat) (t : Tick) (file : String) : Tick :=
  let filePath := pathJoin (uploadDirectory dirname) file
  match stat t.fs filePath with
  | none => t
  | some stats =>
    if (now : Int) - (stats.mtimeMs : Int) > (FILE_LIFETIME_MS : Int) then
      match unlink t.fs filePath with
      | none => t
      | some fs' => { t with fs := fs' }
    else t

/-- The callback handed to `fs.readdir` in lines 302-313, run on the enumeration
result `r`; `clock file` is the reading of `Date.now()` in the `stat` callback
of `file`. The entries have distinct paths, so the order in which their
callbacks complete does not matter; they are run in enumeration order. -/
def sweepCallback (dirname : Path) (clock : String → Nat) (r : Option (List String))
    (fs : FS) : Tick :=
  match r with
  | none => { fs := fs, events := [] }
  | some files =>
    files.foldl (fun t file => sweepFile dirname (clock file) t file) { fs := fs, events := [] }

/-- One tick of the sweeper (the function of `setInterval`, lines 301-314). -/
def sweepTick (dirname : Path) (clock : String → Nat) (fs : FS) : Tick :=
  sweepCallback dirname clock (readdir fs (uploadDirectory dirname)) fs

/-! ## Delete all: lines 316-332 -/

/-- One run of the delete-all handler. `requested` are the paths handed to
`fs.unlink` by the loop of lines 321-326; `deletedAtResponse` is the value of the
variable `deleted` when line 327 builds the response; `deletedFinal` is its
value once every `unlink` callback has run. -/
structure DeleteAllRun where
  requested : List ResolvedPath
  deletedAtResponse : Nat
  deletedFinal : Nat
  outcome : Outcome
deriving DecidableEq, Repr

/-- The completion of one `fs.unlink` of line 323 and its callback
`(err) => { if (!err) deleted++ }`, on the pair (file system, `deleted`). -/
def unlinkCounted (st : FS × Nat) (rp : ResolvedPath) : FS × Nat :=
  match unlink st.1 rp with
  | none => st
  | some fs' => (fs', st.2 + 1)

/-- The callback handed to `fs.readdir` in lines 318-331, run on the enumeration
result `r`. The loop of lines 321-326 only starts the removals: `fs.unlink` is
asynchronous and none of its callbacks runs before the synchronous body has
ended, so lines 327-330 read `deleted` as line 320 left it. The callbacks run
afterwards. -/
def deleteAllCallback (dirname : Path) (r : Option (List String)) (fs : FS) : DeleteAllRun :=
  match r with
  | none =>
    { requested := []
      deletedAtResponse := 0
      deletedFinal := 0
      outcome := { fs := fs, events := [], response := some ⟨500, Body.error "Failed to read files"⟩ } }
  | some files =>
    let deleted := 0
    let requested := files.map (fun file => pathJoin (uploadDirectory dirname) file)
    let response : Response :=
      ⟨200, Body.message ("Requested deletion of all files. Deleted: " ++ toString deleted)⟩
    let events := [Event.allFilesDeleted]
    let final := requested.foldl unlinkCounted (fs, deleted)
    { requested := requested
      deletedAtResponse := deleted
      deletedFinal := final.2
      outcome := { fs := final.1, events := events, response := some response } }

/-- The handler of `DELETE /api/delete-all`, with no change of the directory
between the enumeration and its callback. -/
def deleteAll (dirname : Path) (fs : FS) : DeleteAllRun :=
  deleteAllCallback dirname (readdir fs (uploadDirectory dirname)) fs

/-! ## Upload of several files: `app.post("/api/upload-multiple")`, lines 231-258 -/

/-- The storage behind `upload.array("files")`: the parts are stored one after
the other, the part at position `index` with the clock readings `clock index`.
When a part fails, multer unlinks the files it has already written for this
request and reports the error (`none`). -/
def storeFiles (dirname : Path) (clock : Nat → UploadClock) :
    Nat → List FilePart → FS → FS × Option (List MulterFile)
  | _, [], fs => (fs, some [])
  | index, part :: rest, fs =>
    match diskStorage dirname (clock index) part fs with
    | none => (fs, none)
    | some (fs1, reqFile) =>
      match storeFiles dirname clock (index + 1) rest fs1 with
      | (fs2, some reqFiles) => (fs2, some (reqFile :: reqFiles))
      | (fs2, none) =>
        ((unlink fs2 (pathJoin (uploadDirectory dirname) reqFile.filename)).getD fs2, none)

/-- The array `filePaths` of lines 238-248, `req.files.map((file, index) => ...)`,
from position `index` on; `clock index` holds the readings of `Date.now()` and
of the two `new Date()` taken for the record at that position. -/
def filePaths (clock : Nat → UploadClock) (isEncrypted : Option String) :
    Nat → List MulterFile → List UploadRecord
  | _, [] => []
  | index, file :: rest =>
    { id := (clock index).idTime + index
      name := file.filename
      originalName := file.originalname
      size := file.size
      type := file.mimetype
      timeStamp := (clock index).stampTime
      uploadDate := (clock index).dateTime
      url := "/uploads/" ++ file.filename
      isEncrypted := decide (isEncrypted = some "true") } ::
      filePaths clock isEncrypted (index + 1) rest

/-- The body of the handler of `POST /api/upload-multiple`, lines 233-257, on the
array `req.files` the storage has left (`none` when the request set none). -/
def uploadMultipleHandler (clock : Nat → UploadClock) (reqFiles : Option (List MulterFile))
    (isEncrypted : Option String) (fs : FS) : Outcome :=
  match reqFiles with
  | none => { fs := fs, events := [], response := some ⟨400, Body.error "No files uploaded"⟩ }
  | some [] => { fs := fs, events := [], response := some ⟨400, Body.error "No files uploaded"⟩ }
  | some (file :: rest) =>
    let records := filePaths clock isEncrypted 0 (file :: rest)
    { fs := fs
      events := [Event.filesUploaded records]
      response := some ⟨200, Body.uploadedMany "Files uploaded successfully" records⟩ }

/-- The handler of `POST /api/upload-multiple` behind `upload.array("files")`.
`files` are the parts named `files` of the request, `none` when the request is
not a multipart one. An error of the storage never reaches the handler: the
framework answers it with status 500. -/
def postUploadMultiple (dirname : Path) (clock : Nat → UploadClock)
    (files : Option (List FilePart)) (isEncrypted : Option String) (fs : FS) : Outcome :=
  match files with
  | none => uploadMultipleHandler clock none isEncrypted fs
  | some parts =>
    match storeFiles dirname clock 0 parts fs with
    | (fs', none) =>
      { fs := fs', events := [], response := some ⟨500, Body.error "Internal Server Error"⟩ }
    | (fs', some reqFiles) => uploadMultipleHandler clock (some reqFiles) isEncrypted fs'

/-! ## Connected clients: `io.emit` and the ping of lines 150-156 -/

/-- The id of a connected socket. -/
abbrev SocketId := String

/-- The call `io.emit(event)`: the event is sent once to every connected socket. -/
def ioEmit (sockets : List SocketId) (event : Event) : List (SocketId × Event) :=
  sockets.map (fun socket => (socket, event))

/-- The messages sent while a handler publishes `events` in order. -/
def broadcast (sockets : List SocketId) : List Event → List (SocketId × Event)
  | [] => []
  | event :: rest => ioEmit sockets event ++ broadcast sockets rest

/-- The events one socket is sent, in order. -/
def received (sockets : List SocketId) (events : List Event) (socket : SocketId) : List Event :=
  ((broadcast sockets events).filter (fun m => decide (m.1 = socket))).map Prod.snd

/-- The payload of a `ping`. -/
structure Ping where
  timestamp : Nat
deriving DecidableEq, Repr

/-- The payload of a `pong`. -/
structure Pong where
  timestamp : Nat
  serverTime : Nat
deriving DecidableEq, Repr

/-- The listener `socket.on("ping", ...)` of lines 151-156 on the socket `socket`:
the messages it sends with `socket.emit`, each with the socket it goes to. `now`
is the reading of `Date.now()` in line 154. -/
def onPing (now : Nat) (socket : SocketId) (data : Ping) : List (SocketId × Pong) :=
  [(socket, { timestamp := data.timestamp, serverTime := now })]

/-- What `SocketService.testConnection` resolves to (socketService.js, lines 131-135). -/
structure ConnectionTest where
  success : Bool
  latency : Int
  serverTime : Nat
deriving DecidableEq, Repr

/-- The ping `testConnection` emits in line 127 of socketService.js, `now` being
the client's `Date.now()`. -/
def testConnectionPing (now : Nat) : Ping := { timestamp := now }

/-- The `pong` listener of `testConnection`, lines 129-136 of socketService.js,
`now` being the client's `Date.now()` when the pong arrives. -/
def testConnectionPong (now : Nat) (data : Pong) : ConnectionTest :=
  { success := true, latency := (now : Int) - (data.timestamp : Int), serverTime := data.serverTime }

/-! ## The client's file list: `FileList.jsx`, lines 36-104 -/

/-- An entry of the client's list `files`: an object of which the listeners read
`name` and `id`; a field the object lacks (`undefined`) is `none`. -/
structure ClientFile where
  id : Option Nat
  name : Option String
  size : Nat
  type : String
  url : String
deriving DecidableEq, Repr

/-- The entry a record of `GET /api/files` becomes. -/
def ClientFile.ofListRecord (r : ListRecord) : ClientFile :=
  { id := some r.id, name := some r.name, size := r.size, type := r.type, url := r.url }

/-- The entry a record of an upload event becomes. -/
def ClientFile.ofUploadRecord (r : UploadRecord) : ClientFile :=
  { id := some r.id, name := some r.name, size := r.size, type := r.type, url := r.url }

/-- The payload of a `fileDeleted` event as the listener reads it. -/
structure DeletedFile where
  filename : Option String
  name : Option String
deriving DecidableEq, Repr

/-- The `fileUploaded` listener, FileList.jsx lines 44-56. -/
def onFileUploaded (prevFiles : List ClientFile) (newFile : ClientFile) : List ClientFile :=
  let found := prevFiles.any (fun file =>
    decide (file.name = newFile.name) || decide (file.id = newFile.id))
  if !found then prevFiles ++ [newFile] else prevFiles

/-- The `filesUploaded` listener, FileList.jsx lines 59-68. -/
def onFilesUploaded (prevFiles : List ClientFile) (newFiles : List ClientFile) :
    List ClientFile :=
  let existingNames := prevFiles.map (fun file => file.name)
  let uniqueNewFiles := newFiles.filter (fun file => !(existingNames.contains file.name))
  prevFiles ++ uniqueNewFiles

/-- The `fileDeleted` listener, FileList.jsx lines 71-80. -/
def onFileDeleted (prevFiles : List ClientFile) (deletedFile : DeletedFile) : List ClientFile :=
  prevFiles.filter (fun file =>
    decide (file.name ≠ deletedFile.filename) && decide (file.name ≠ deletedFile.name))

/-- The client's list after an event of the server has arrived. `FileList.jsx`
registers a listener for `fileUploaded`, `filesUploaded` and `fileDeleted` and no
other (socketService.js offers none for `allFilesDeleted`), so an
`allFilesDeleted` event leaves the list as it is. -/
def onServerEvent (files : List ClientFile) : Event → List ClientFile
  | Event.fileUploaded filePath => onFileUploaded files (ClientFile.ofUploadRecord filePath)
  | Event.filesUploaded records => onFilesUploaded files (records.map ClientFile.ofUploadRecord)
  | Event.fileDeleted name => onFileDeleted files { filename := some name, name := none }
  | Event.allFilesDeleted => files

/-- The list the client holds: the records of its last `GET /api/files`
(`setFiles(fileList)`, FileList.jsx line 17; none before the first answer),
followed by the events of the server that have arrived since. -/
def clientList (fileList : List ListRecord) (events : List Event) : List ClientFile :=
  events.foldl onServerEvent (fileList.map ClientFile.ofListRecord)

/-! ## Network detection: `getLocalNetworkIP` and `getPriority`, index.js lines 20-57 -/

/-- One address of a network interface, as `os.networkInterfaces()` lists it. -/
structure NetworkAddress where
  address : String
  family : String
  internal : Bool
deriving DecidableEq, Repr

/-- The table `os.networkInterfaces()`: the interface names in the order of
`Object.keys`, each with its addresses in order. -/
abbrev InterfaceTable := List (String × List NetworkAddress)

/-- The call `s.startsWith(p)`. -/
def startsWith (s p : String) : Bool := p.data.isPrefixOf s.data

/-- Whether the characters `sub` occur consecutively in the characters given. -/
def includesChars : List Char → List Char → Bool
  | [], sub => sub.isEmpty
  | c :: cs, sub => sub.isPrefixOf (c :: cs) || includesChars cs sub

/-- The call `s.includes(sub)`. -/
def includes (s sub : String) : Bool := includesChars s.data sub.data

/-- The call `s.toLowerCase()`, on the letters A to Z. -/
def toLowerCase (s : String) : String := ⟨s.data.map Char.toLower⟩

/-- The function `getPriority` of lines 45-57. -/
def getPriority (address interfaceName : String) : Nat :=
  if startsWith address "192.168." then 100
  else if startsWith address "10." then 90
  else if startsWith address "172." then 80
  else
    let name := toLowerCase interfaceName
    if includes name "wifi" || includes name "wireless" then 70
    else if includes name "ethernet" || includes name "eth" then 60
    else 50

/-- An entry of the array `candidates` of lines 23-34. -/
structure Candidate where
  name : String
  address : String
  priority : Nat
deriving DecidableEq, Repr

/-- The inner loop of lines 26-35 over the addresses of the interface `name`. -/
def candidatesOf (name : String) : List NetworkAddress → List Candidate
  | [] => []
  | iface :: rest =>
    if iface.family = "IPv4" ∧ iface.internal = false then
      { name := name, address := iface.address, priority := getPriority iface.address name } ::
        candidatesOf name rest
    else candidatesOf name rest

/-- The array `candidates` after the loops of lines 25-36. -/
def candidates : InterfaceTable → List Candidate
  | [] => []
  | (name, ifaces) :: rest => candidatesOf name ifaces ++ candidates rest

/-- Insertion of `a`, which stood before every entry of the sorted list given,
under the comparison `(a, b) => b.priority - a.priority`: `a` goes before the
first `b` for which the comparison is not positive. -/
def insertCandidate (a : Candidate) : List Candidate → List Candidate
  | [] => [a]
  | b :: rest =>
    if (b.priority : Int) - (a.priority : Int) ≤ 0 then a :: b :: rest
    else b :: insertCandidate a rest

/-- The call `candidates.sort((a, b) => b.priority - a.priority)` of line 39:
a stable sort, by decreasing priority. -/
def sortCandidates : List Candidate → List Candidate
  | [] => []
  | a :: rest => insertCandidate a (sortCandidates rest)

/-- The function `getLocalNetworkIP` of index.js, lines 21-42. -/
def getLocalNetworkIP (interfaces : InterfaceTable) : String :=
  match sortCandidates (candidates interfaces) with
  | [] => "localhost"
  | first :: _ => first.address

/-- The url the server advertises for `VITE_API_URL` in line 415. -/
def advertisedUrl (interfaces : InterfaceTable) (port : String) : String :=
  "http://" ++ getLocalNetworkIP interfaces ++ ":" ++ port

namespace ConfigureNetwork

/-- The inner loop of lines 11-15 of configure-network.js: the first address of
the interface that is IPv4 and not internal. -/
def firstAddress : List NetworkAddress → Option String
  | [] => none
  | iface :: rest =>
    if iface.family = "IPv4" ∧ iface.internal = false then some iface.address
    else firstAddress rest

/-- The function `getLocalNetworkIP` of configure-network.js, lines 8-18. -/
def getLocalNetworkIP : InterfaceTable → String
  | [] => "localhost"
  | (_, ifaces) :: rest =>
    match firstAddress ifaces with
    | some address => address
    | none => getLocalNetworkIP rest

/-- The line the script writes into the frontend's `.env` (lines 38-43). -/
def envLine (interfaces : InterfaceTable) (port : String) : String :=
  "VITE_API_URL=http://" ++ getLocalNetworkIP interfaces ++ ":" ++ port

end ConfigureNetwork

/-! ## The client's `SocketService` (socketService.js) and `getNetworkQuality` -/

/-- The fields of the `SocketService` object: whether `this.socket` is set,
`isConnected` and `reconnectAttempts`. -/
structure SocketService where
  socket : Bool
  isConnected : Bool
  reconnectAttempts : Nat
deriving DecidableEq, Repr

/-- The constructor, lines 5-10. -/
def SocketService.new : SocketService :=
  { socket := false, isConnected := false, reconnectAttempts := 0 }

/-- What can happen to the service: a call of `connect()` or `disconnect()`, or
one of the socket events the listeners of lines 27-52 react to. -/
inductive SocketAction where
  | connect
  | disconnect
  | onConnect
  | onDisconnect
  | onConnectError
  | onReconnect
deriving DecidableEq, Repr

/-- One action on the service. The listeners are registered by `connect()` on
the socket it creates and can run as long as that socket lives; they are taken
here to run whenever their event is given. -/
def SocketService.step (s : SocketService) : SocketAction → SocketService
  | SocketAction.connect => if s.socket then s else { s with socket := true }
  | SocketAction.disconnect =>
    if s.socket then { s with socket := false, isConnected := false } else s
  | SocketAction.onConnect => { s with isConnected := true, reconnectAttempts := 0 }
  | SocketAction.onDisconnect => { s with isConnected := false }
  | SocketAction.onConnectError =>
    { s with isConnected := false, reconnectAttempts := s.reconnectAttempts + 1 }
  | SocketAction.onReconnect => { s with isConnected := true, reconnectAttempts := 0 }

/-- The service after a sequence of actions on the fresh object. -/
def SocketService.run (actions : List SocketAction) : SocketService :=
  actions.foldl SocketService.step SocketService.new

/-- The result of `getNetworkQuality`. -/
structure NetworkQuality where
  quality : String
  color : String
  text : String
deriving DecidableEq, Repr

/-- The method `getNetworkQuality` of networkService.js, lines 93-109, on the
status `getConnectionStatus()` reads from the service; `transport` is the name
of the transport in use. -/
def getNetworkQuality (s : SocketService) (transport : String) : NetworkQuality :=
  if !s.isConnected then { quality := "poor", color := "red", text := "Disconnected" }
  else if s.reconnectAttempts > 0 then
    { quality := "fair", color := "yellow", text := "Unstable" }
  else if transport = "websocket" then
    { quality := "excellent", color := "green", text := "Excellent" }
  else { quality := "good", color := "blue", text := "Good" }

/-! ## Well-formed file systems -/

/-- A name a directory entry can bear: not empty, not `.` or `..`, without `/`. -/
def validSegment (s : String) : Prop :=
  s ≠ "" ∧ s ≠ "." ∧ s ≠ ".." ∧ '/' ∉ s.data

instance (s : String) : Decidable (validSegment s) := by
  unfold validSegment; infer_instance

/-- Every path is made of entry names. -/
def validPath (p : Path) : Prop := ∀ s ∈ p, validSegment s

instance (p : Path) : Decidable (validPath p) := by
  unfold validPath; infer_instance

/-- A file system as the operating system keeps it: no two files share a path
and every path is made of entry names. -/
def FS.WF (fs : FS) : Prop :=
  (fs.files.map Prod.fst).Nodup ∧ ∀ e ∈ fs.files, validPath e.1

instance (fs : FS) : Decidable fs.WF := by
  unfold FS.WF; infer_instance

/-! ## Decimal numerals -/

/-- The value of a decimal digit character. -/
def digitValue (c : Char) : Nat := c.toNat - 48

/-- The number a string of decimal digits denotes, read from the left with `acc`
the value read so far. -/
def decimalValue (acc : Nat) : List Char → Nat
  | [] => acc
  | c :: cs => decimalValue (acc * 10 + digitValue c) cs

/-! ## Sample states -/

/-- The directory the server runs from in the examples: `/srv/app`. -/
def sampleDirname : Path := ["srv", "app"]

/-- A ten-byte file last written at time 1000. -/
def sampleFile : File :=
  { content := [104, 101, 108, 108, 111, 119, 111, 114, 108, 100]
    mtimeMs := 1000, birthtimeMs := 1000, locked := false }

/-- A file of the application itself, outside the Storage Directory. -/
def sampleKey : File :=
  { content := [1, 2, 3], mtimeMs := 5, birthtimeMs := 5, locked := false }

/-- One stored file, and one file of the application next to the Storage
Directory. -/
def sampleFS : FS :=
  { files := [(["srv", "app", "uploads", "1000-a.txt"], sampleFile),
              (["srv", "app", "server.key"], sampleKey)]
    unreadable := [] }

/-- A stored file that cannot be unlinked. -/
def sampleLocked : File :=
  { content := [7, 7], mtimeMs := 2000, birthtimeMs := 2000, locked := true }

/-- A Storage Directory of three files, the second of which cannot be unlinked. -/
def sampleLockedFS : FS :=
  { files := [(["srv", "app", "uploads", "1000-a.txt"], sampleFile),
              (["srv", "app", "uploads", "2000-b.bin"], sampleLocked),
              (["srv", "app", "uploads", "3000-c.txt"], sampleFile)]
    unreadable := [] }

/-- The empty file system. -/
def emptyFS : FS := { files := [], unreadable := [] }

/-- Clock readings of an upload in the examples. -/
def sampleClock : UploadClock :=
  { nameTime := 1700000000000, writeTime := 1700000000001, idTime := 1700000000002,
    stampTime := 1700000000002, dateTime := 1700000000002 }

/-- Clock readings of a later upload. -/
def laterClock : UploadClock :=
  { nameTime := 1700000000500, writeTime := 1700000000501, idTime := 1700000000502,
    stampTime := 1700000000502, dateTime := 1700000000502 }

/-- A one-byte part named `a.txt`. -/
def partA : FilePart := { originalname := "a.txt", mimetype := "text/plain", bytes := [1] }

/-- A two-byte part, also named `a.txt`. -/
def partA2 : FilePart := { originalname := "a.txt", mimetype := "text/plain", bytes := [2, 3] }

/-- A part named `b.txt`. -/
def partB : FilePart := { originalname := "b.txt", mimetype := "text/plain", bytes := [4, 5, 6] }

/-- The three-file directory before the file `0500-gone.txt` was removed from it. -/
def fourFileFS : FS :=
  { files := [(["srv", "app", "uploads", "0500-gone.txt"], sampleFile),
              (["srv", "app", "uploads", "1000-a.txt"], sampleFile),
              (["srv", "app", "uploads", "2000-b.bin"], sampleLocked),
              (["srv", "app", "uploads", "3000-c.txt"], sampleFile)]
    unreadable := [] }

/-- An enumeration of the three-file directory that also lists `0500-gone.txt`, an
entry removed since the enumeration was taken. -/
def staleEnumeration : List String :=
  ["0500-gone.txt", "1000-a.txt", "2000-b.bin", "3000-c.txt"]

/-- Two connected sockets. -/
def sampleSockets : List SocketId := ["socket-1", "socket-2"]

/-- The clock readings of the records of a batch: the same for every position. -/
def batchClock : Nat → UploadClock := fun _ => sampleClock

/-- Two stored files of a batch, as the storage reports them. -/
def sampleReqFiles : List MulterFile :=
  [{ filename := "1700000000000-a.txt", originalname := "a.txt", mimetype := "text/plain",
     size := 1 },
   { filename := "1700000000000-b.txt", originalname := "b.txt", mimetype := "text/plain",
     size := 3 }]

/-- The client's list holding the one stored file of the sample directory. -/
def sampleClientFiles : List ClientFile :=
  [{ id := some 1, name := some "1000-a.txt", size := 10, type := "application/octet-stream",
     url := "/uploads/1000-a.txt" }]

/-- The client's list holding two stored files. -/
def twoClientFiles : List ClientFile :=
  [{ id := some 1, name := some "1000-a.txt", size := 10, type := "application/octet-stream",
     url := "/uploads/1000-a.txt" },
   { id := some 2, name := some "2000-b.bin", size := 2, type := "application/octet-stream",
     url := "/uploads/2000-b.bin" }]

/-- A host whose wired interface, on a `10.` network, is enumerated before its
wireless interface, on a `192.168.` network. -/
def sampleInterfaces : InterfaceTable :=
  [("lo", [{ address := "127.0.0.1", family := "IPv4", internal := true }]),
   ("eth0", [{ address := "10.0.0.5", family := "IPv4", internal := false }]),
   ("wlan0", [{ address := "fe80::1", family := "IPv6", internal := false },
              { address := "192.168.1.5", family := "IPv4", internal := false }])]

/-! ## Paths: lemmas -/

theorem uploadDirectory_eq (dirname : Path) :
    uploadDirectory dirname = dirname ++ ["uploads"] := by
  simp [uploadDirectory, normalizeString]

theorem splitSlash_of_not_mem (cs : List Char) (h : '/' ∉ cs) : splitSlash cs = [cs] := by
  induction cs with
  | nil => rfl
  | cons c cs ih =>
    have hc : c ≠ '/' := fun e => h (by simp [e])
    have hcs : '/' ∉ cs := fun m => h (List.mem_cons_of_mem _ m)
    simp [splitSlash, hc, ih hcs]

theorem segments_of_valid (s : String) (h : validSegment s) : segments s = [s] := by
  obtain ⟨_, _, _, hs⟩ := h
  simp [segments, splitSlash_of_not_mem _ hs]

theorem getLast?_mem {α : Type} (l : List α) (a : α) (h : l.getLast? = some a) : a ∈ l := by
  exact List.mem_of_getLast?_eq_some h

theorem pathJoin_of_valid (dir : Path) (s : String) (h : validSegment s) :
    pathJoin dir s = { segs := dir ++ [s], trailingSlash := false } := by
  have hseg := segments_of_valid s h
  obtain ⟨h1, h2, h3, hs⟩ := h
  have ht : ¬ (s.data.getLast? = some '/') := fun e => hs (getLast?_mem _ _ e)
  simp [pathJoin, hseg, normalizeString, h1, h2, h3, ht]

theorem normalizeString_keeps_base (base : Path) (segs : List String)
    (h : ∀ s ∈ segs, s ≠ "..") :
    ∀ acc : Path, base <+: acc → base <+: normalizeString acc segs := by
  induction segs with
  | nil => intro acc hacc; simpa [normalizeString] using hacc
  | cons s rest ih =>
    intro acc hacc
    have hs : s ≠ ".." := h s (by simp)
    have hrest : ∀ t ∈ rest, t ≠ ".." := fun t ht => h t (List.mem_cons_of_mem _ ht)
    unfold normalizeString
    by_cases h1 : s = "" ∨ s = "."
    · rw [if_pos h1]; exact ih hrest acc hacc
    · rw [if_neg h1, if_neg hs]
      exact ih hrest (acc ++ [s]) (hacc.trans (List.prefix_append acc [s]))

/-! ## File system: lemmas -/

theorem find?_filter_ne (l : List (Path × File)) (q p : Path) (h : p ≠ q) :
    (l.filter (fun e => decide (e.1 ≠ q))).find? (fun e => decide (e.1 = p))
      = l.find? (fun e => decide (e.1 = p)) := by
  induction l with
  | nil => rfl
  | cons e rest ih =>
    by_cases he : e.1 = q
    · have hep : ¬ e.1 = p := fun e' => h (e'.symm.trans he)
      rw [List.filter_cons_of_neg (by simpa using he), List.find?_cons_of_neg _ (by simpa using hep)]
      exact ih
    · rw [List.filter_cons_of_pos (by simpa using he)]
      by_cases hp : e.1 = p
      · rw [List.find?_cons_of_pos _ (by simpa using hp), List.find?_cons_of_pos _ (by simpa using hp)]
      · rw [List.find?_cons_of_neg _ (by simpa using hp), List.find?_cons_of_neg _ (by simpa using hp)]
        exact ih

theorem lookup_filter_ne (fs : FS) (q p : Path) (h : p ≠ q) :
    FS.lookup { fs with files := fs.files.filter (fun e => decide (e.1 ≠ q)) } p
      = fs.lookup p := by
  unfold FS.lookup
  simp only
  rw [find?_filter_ne fs.files q p h]

theorem lookup_filter_self (fs : FS) (q : Path) :
    FS.lookup { fs with files := fs.files.filter (fun e => decide (e.1 ≠ q)) } q = none := by
  unfold FS.lookup
  simp only [Option.map_eq_none', List.find?_eq_none]
  intro e he
  simp only [List.mem_filter] at he
  simpa using he.2

theorem unlink_lookup_ne (fs fs' : FS) (rp : ResolvedPath) (h : unlink fs rp = some fs')
    (p : Path) (hp : p ≠ rp.segs) : fs'.lookup p = fs.lookup p := by
  unfold unlink at h
  split at h
  · exact absurd h (by simp)
  · split at h
    · exact absurd h (by simp)
    · cases h; exact lookup_filter_ne fs rp.segs p hp

theorem unlink_lookup_self (fs fs' : FS) (rp : ResolvedPath) (h : unlink fs rp = some fs') :
    fs'.lookup rp.segs = none := by
  unfold unlink at h
  split at h
  · exact absurd h (by simp)
  · split at h
    · exact absurd h (by simp)
    · cases h; exact lookup_filter_self fs rp.segs

theorem deleteFile_lookup_ne (dirname : Path) (name : String) (fs : FS) (p : Path)
    (hp : p ≠ (pathJoin (uploadDirectory dirname) name).segs) :
    (deleteFile dirname name fs).fs.lookup p = fs.lookup p := by
  cases h : unlink fs (pathJoin (uploadDirectory dirname) name) with
  | none => simp only [deleteFile, h]
  | some fs' =>
    simp only [deleteFile, h]
    exact unlink_lookup_ne fs fs' _ h p hp

/-! ## C1 -/

/-- C1, counterexample. The name `../server.key` resolves to `/srv/app/server.key`,
outside the Storage Directory `/srv/app/uploads`; it is not rejected: Download
answers 200 with the bytes of that file and Delete answers 200 and removes it. -/
theorem C1_traversal_is_not_rejected :
    ¬ (uploadDirectory sampleDirname <+:
        (pathJoin (uploadDirectory sampleDirname) "../server.key").segs)
    ∧ sampleFS.lookup ["srv", "app", "server.key"] = some sampleKey
    ∧ (getDownload sampleDirname "../server.key" sampleFS).response
        = some ⟨200, Body.attachment "../server.key" [1, 2, 3]⟩
    ∧ (deleteFile sampleDirname "../server.key" sampleFS).response
        = some ⟨200, Body.message "File deleted successfully"⟩
    ∧ (deleteFile sampleDirname "../server.key" sampleFS).fs.lookup
        ["srv", "app", "server.key"] = none := by
  decide

/-- C1, amended. The handlers make no containment check: Download and Delete act
on the path obtained by joining the Storage Directory and the name. For a name
none of whose `/`-separated segments is `..`, that path lies inside the Storage
Directory (or is the directory itself); Download answers with the file at that
path or with 404 and changes nothing, and Delete leaves every file at any other
path, so every file outside the directory, as it was. -/
theorem C1_names_without_dotdot_stay_inside (dirname : Path) (name : String) (fs : FS)
    (h : ∀ s ∈ segments name, s ≠ "..") :
    uploadDirectory dirname <+: (pathJoin (uploadDirectory dirname) name).segs
    ∧ (getDownload dirname name fs).fs = fs
    ∧ (getDownload dirname name fs).response
        = (match fs.lookup (pathJoin (uploadDirectory dirname) name).segs with
           | some f => some ⟨200, Body.attachment name f.content⟩
           | none => some ⟨404, Body.error "File not found"⟩)
    ∧ (∀ p : Path, p ≠ (pathJoin (uploadDirectory dirname) name).segs →
        (deleteFile dirname name fs).fs.lookup p = fs.lookup p)
    ∧ (∀ p : Path, ¬ (uploadDirectory dirname <+: p) →
        (deleteFile dirname name fs).fs.lookup p = fs.lookup p) := by
  have hin : uploadDirectory dirname <+: (pathJoin (uploadDirectory dirname) name).segs :=
    normalizeString_keeps_base _ _ h _ (List.prefix_refl _)
  refine ⟨hin, ?_, ?_, ?_, ?_⟩
  · unfold getDownload; simp only; split <;> rfl
  · unfold getDownload; simp only; split <;> simp_all
  · intro p hp; exact deleteFile_lookup_ne dirname name fs p hp
  · intro p hp
    exact deleteFile_lookup_ne dirname name fs p (fun e => hp (e ▸ hin))

/-- C1, amended: an instance. The stored name `1000-a.txt` has no `..` segment. -/
theorem C1_names_without_dotdot_stay_inside_witness :
    uploadDirectory sampleDirname <+: (pathJoin (uploadDirectory sampleDirname) "1000-a.txt").segs
    ∧ (getDownload sampleDirname "1000-a.txt" sampleFS).fs = sampleFS
    ∧ (getDownload sampleDirname "1000-a.txt" sampleFS).response
        = (match sampleFS.lookup (pathJoin (uploadDirectory sampleDirname) "1000-a.txt").segs with
           | some f => some ⟨200, Body.attachment "1000-a.txt" f.content⟩
           | none => some ⟨404, Body.error "File not found"⟩)
    ∧ (∀ p : Path, p ≠ (pathJoin (uploadDirectory sampleDirname) "1000-a.txt").segs →
        (deleteFile sampleDirname "1000-a.txt" sampleFS).fs.lookup p = sampleFS.lookup p)
    ∧ (∀ p : Path, ¬ (uploadDirectory sampleDirname <+: p) →
        (deleteFile sampleDirname "1000-a.txt" sampleFS).fs.lookup p = sampleFS.lookup p) :=
  C1_names_without_dotdot_stay_inside sampleDirname "1000-a.txt" sampleFS (by decide)

/-! ## Directory enumeration: lemmas -/

theorem lookup_some_mem (fs : FS) (p : Path) (f : File) (h : fs.lookup p = some f) :
    (p, f) ∈ fs.files := by
  unfold FS.lookup at h
  cases hfind : fs.files.find? (fun e => decide (e.1 = p)) with
  | none => rw [hfind] at h; exact absurd h (by simp)
  | some e =>
    rw [hfind] at h
    have hmem := List.mem_of_find?_eq_some hfind
    have hp : e.1 = p := by simpa using List.find?_some hfind
    have hf : e.2 = f := by simpa using h
    have : e = (p, f) := Prod.ext hp hf
    exact this ▸ hmem

theorem childName_concat (dir : Path) (n : String) : childName dir (dir ++ [n]) = some n := by
  simp [childName]

theorem childName_some (dir p : Path) (n : String) (h : childName dir p = some n) :
    p = dir ++ [n] := by
  unfold childName at h
  split at h
  · next hd =>
    have := List.dropLast_append_getLast? n (by simpa using h)
    rw [hd] at this
    exact this.symm
  · exact absurd h (by simp)

theorem mem_readdir (fs : FS) (dir : Path) (ns : List String) (h : readdir fs dir = some ns)
    (n : String) : n ∈ ns ↔ ∃ f, (dir ++ [n], f) ∈ fs.files := by
  unfold readdir at h
  split at h
  · exact absurd h (by simp)
  · have hns : ns = fs.files.filterMap (fun e => childName dir e.1) := by simpa using h.symm
    subst hns
    rw [List.mem_filterMap]
    constructor
    · rintro ⟨e, he, hc⟩
      have hp := childName_some dir e.1 n hc
      exact ⟨e.2, by rw [← hp]; exact he⟩
    · rintro ⟨f, hf⟩
      exact ⟨(dir ++ [n], f), hf, childName_concat dir n⟩

theorem readdir_valid (fs : FS) (hwf : fs.WF) (dir : Path) (ns : List String)
    (h : readdir fs dir = some ns) : ∀ n ∈ ns, validSegment n := by
  intro n hn
  obtain ⟨f, hf⟩ := (mem_readdir fs dir ns h n).1 hn
  exact hwf.2 _ hf n (by simp)

theorem lookup_valid (fs : FS) (hwf : fs.WF) (dir : Path) (n : String) (f : File)
    (h : fs.lookup (dir ++ [n]) = some f) : validSegment n :=
  hwf.2 _ (lookup_some_mem fs _ f h) n (by simp)

theorem unlink_lookup_none (fs fs' : FS) (rp : ResolvedPath) (h : unlink fs rp = some fs')
    (p : Path) (hp : fs.lookup p = none) : fs'.lookup p = none := by
  by_cases e : p = rp.segs
  · rw [e]; exact unlink_lookup_self fs fs' rp h
  · rw [unlink_lookup_ne fs fs' rp h p e]; exact hp

theorem unlink_of_file (fs : FS) (p : Path) (f : File) (h : fs.lookup p = some f)
    (hl : f.locked = false) :
    unlink fs ⟨p, false⟩
      = some { fs with files := fs.files.filter (fun e => decide (e.1 ≠ p)) } := by
  simp [unlink, fileAt, h, hl]

theorem unlink_of_locked (fs : FS) (p : Path) (f : File) (h : fs.lookup p = some f)
    (hl : f.locked = true) : unlink fs ⟨p, false⟩ = none := by
  simp [unlink, fileAt, h, hl]

theorem unlink_of_absent (fs : FS) (rp : ResolvedPath) (h : fileAt fs rp = none) :
    unlink fs rp = none := by
  simp [unlink, h]

/-! ## Sweeper: lemmas -/

theorem sweepFile_events (dirname : Path) (now : Nat) (t : Tick) (file : String) :
    (sweepFile dirname now t file).events = t.events := by
  unfold sweepFile
  simp only
  split
  · rfl
  · split
    · split <;> rfl
    · rfl

theorem sweep_foldl_events (dirname : Path) (clock : String → Nat) (files : List String) :
    ∀ t : Tick,
      (files.foldl (fun t file => sweepFile dirname (clock file) t file) t).events = t.events := by
  induction files with
  | nil => intro t; rfl
  | cons file rest ih =>
    intro t
    rw [List.foldl_cons, ih, sweepFile_events]

theorem sweepFile_lookup_ne (dirname : Path) (now : Nat) (t : Tick) (file : String) (p : Path)
    (hp : p ≠ (pathJoin (uploadDirectory dirname) file).segs) :
    (sweepFile dirname now t file).fs.lookup p = t.fs.lookup p := by
  unfold sweepFile
  simp only
  split
  · rfl
  · split
    · split
      · rfl
      · next fs' hu => exact unlink_lookup_ne t.fs fs' _ hu p hp
    · rfl

theorem sweepFile_lookup_none (dirname : Path) (now : Nat) (t : Tick) (file : String) (p : Path)
    (hp : t.fs.lookup p = none) : (sweepFile dirname now t file).fs.lookup p = none := by
  unfold sweepFile
  simp only
  split
  · exact hp
  · split
    · split
      · exact hp
      · next fs' hu => exact unlink_lookup_none t.fs fs' _ hu p hp
    · exact hp

theorem sweepFile_expired (dirname : Path) (now : Nat) (t : Tick) (file : String) (f : File)
    (hv : validSegment file)
    (hf : t.fs.lookup (uploadDirectory dirname ++ [file]) = some f)
    (hexp : (now : Int) - (f.mtimeMs : Int) > (FILE_LIFETIME_MS : Int)) (hl : f.locked = false) :
    (sweepFile dirname now t file).fs.lookup (uploadDirectory dirname ++ [file]) = none := by
  unfold sweepFile
  rw [pathJoin_of_valid _ _ hv]
  simp only [stat, fileAt, hf, Bool.false_eq_true, if_false, Option.map_some', if_pos hexp]
  rw [unlink_of_file t.fs _ f hf hl]
  exact lookup_filter_self t.fs _

theorem sweepFile_kept (dirname : Path) (now : Nat) (t : Tick) (file : String) (f : File)
    (hv : validSegment file)
    (hf : t.fs.lookup (uploadDirectory dirname ++ [file]) = some f)
    (hkeep : ¬ ((now : Int) - (f.mtimeMs : Int) > (FILE_LIFETIME_MS : Int)) ∨ f.locked = true) :
    (sweepFile dirname now t file).fs.lookup (uploadDirectory dirname ++ [file]) = some f := by
  unfold sweepFile
  rw [pathJoin_of_valid _ _ hv]
  simp only [stat, fileAt, hf, Bool.false_eq_true, if_false, Option.map_some']
  split
  · next hexp =>
    have hl : f.locked = true := hkeep.resolve_left (not_not_intro hexp)
    rw [unlink_of_locked t.fs _ f hf hl]
    exact hf
  · exact hf

theorem concat_ne_of_ne (dir : Path) (a b : String) (h : a ≠ b) : dir ++ [a] ≠ dir ++ [b] := by
  intro e
  exact h (by simpa using e)

theorem sweep_foldl_none (dirname : Path) (clock : String → Nat) (files : List String)
    (p : Path) :
    ∀ t : Tick, t.fs.lookup p = none →
      (files.foldl (fun t file => sweepFile dirname (clock file) t file) t).fs.lookup p = none := by
  induction files with
  | nil => intro t h; exact h
  | cons file rest ih =>
    intro t h
    rw [List.foldl_cons]
    exact ih _ (sweepFile_lookup_none dirname _ t file p h)

theorem sweep_foldl_expired (dirname : Path) (clock : String → Nat) (files : List String)
    (hvalid : ∀ n ∈ files, validSegment n) (name : String) (f : File)
    (hexp : (clock name : Int) - (f.mtimeMs : Int) > (FILE_LIFETIME_MS : Int))
    (hl : f.locked = false) :
    ∀ t : Tick, name ∈ files → t.fs.lookup (uploadDirectory dirname ++ [name]) = some f →
      (files.foldl (fun t file => sweepFile dirname (clock file) t file) t).fs.lookup
        (uploadDirectory dirname ++ [name]) = none := by
  induction files with
  | nil => intro t hmem; exact absurd hmem (by simp)
  | cons file rest ih =>
    intro t hmem hf
    have hvf : validSegment file := hvalid file (by simp)
    have hvr : ∀ n ∈ rest, validSegment n := fun n hn => hvalid n (List.mem_cons_of_mem _ hn)
    rw [List.foldl_cons]
    by_cases e : file = name
    · subst e
      exact sweep_foldl_none dirname clock rest _ _
        (sweepFile_expired dirname _ t file f hvf hf hexp hl)
    · have hmem' : name ∈ rest := by
        rcases List.mem_cons.1 hmem with h | h
        · exact absurd h.symm e
        · exact h
      refine ih hvr _ hmem' ?_
      rw [sweepFile_lookup_ne dirname _ t file _ ?_]
      · exact hf
      · rw [pathJoin_of_valid _ _ hvf]
        exact concat_ne_of_ne _ _ _ (Ne.symm e)

theorem sweep_foldl_kept (dirname : Path) (clock : String → Nat) (files : List String)
    (hvalid : ∀ n ∈ files, validSegment n) (name : String) (f : File)
    (hkeep : ¬ ((clock name : Int) - (f.mtimeMs : Int) > (FILE_LIFETIME_MS : Int))
      ∨ f.locked = true) :
    ∀ t : Tick, t.fs.lookup (uploadDirectory dirname ++ [name]) = some f →
      (files.foldl (fun t file => sweepFile dirname (clock file) t file) t).fs.lookup
        (uploadDirectory dirname ++ [name]) = some f := by
  induction files with
  | nil => intro t hf; exact hf
  | cons file rest ih =>
    intro t hf
    have hvf : validSegment file := hvalid file (by simp)
    have hvr : ∀ n ∈ rest, validSegment n := fun n hn => hvalid n (List.mem_cons_of_mem _ hn)
    rw [List.foldl_cons]
    refine ih hvr _ ?_
    by_cases e : file = name
    · subst e
      exact sweepFile_kept dirname _ t file f hvf hf hkeep
    · rw [sweepFile_lookup_ne dirname _ t file _ ?_]
      · exact hf
      · rw [pathJoin_of_valid _ _ hvf]
        exact concat_ne_of_ne _ _ _ (Ne.symm e)

/-! ## C2 -/

/-- C2, the code at a failing input. The Storage Directory holds one file. Every
removal succeeds and the directory is empty afterwards, so one file was present
and one was removed, yet the response reports `Deleted: 0`: the variable
`deleted` is read when the response is built, before any `unlink` callback has
run. -/
theorem C2_deleteAll_reports_zero :
    readdir sampleFS (uploadDirectory sampleDirname) = some ["1000-a.txt"]
    ∧ (deleteAll sampleDirname sampleFS).outcome.response
        = some ⟨200, Body.message "Requested deletion of all files. Deleted: 0"⟩
    ∧ (deleteAll sampleDirname sampleFS).deletedAtResponse = 0
    ∧ (deleteAll sampleDirname sampleFS).deletedFinal = 1
    ∧ readdir (deleteAll sampleDirname sampleFS).outcome.fs (uploadDirectory sampleDirname)
        = some [] := by
  decide

/-! ## C3 -/

/-- C3, counterexample. A sweep at time 10 000 000 removes the stored file
`1000-a.txt`, last written at time 1000, and publishes no event, while an
explicit Delete of the same file publishes `fileDeleted` naming it. -/
theorem C3_sweep_removes_silently :
    sampleFS.lookup ["srv", "app", "uploads", "1000-a.txt"] = some sampleFile
    ∧ (sweepTick sampleDirname (fun _ => 10000000) sampleFS).fs.lookup
        ["srv", "app", "uploads", "1000-a.txt"] = none
    ∧ (sweepTick sampleDirname (fun _ => 10000000) sampleFS).events = []
    ∧ (deleteFile sampleDirname "1000-a.txt" sampleFS).events
        = [Event.fileDeleted "1000-a.txt"] := by
  decide

/-- C3, amended. The Expiry Sweeper publishes no event: whatever the directory
holds and whatever a sweep tick removes, the list of events the tick publishes
is empty. -/
theorem C3_sweep_publishes_nothing (dirname : Path) (clock : String → Nat) (fs : FS) :
    (sweepTick dirname clock fs).events = [] := by
  unfold sweepTick sweepCallback
  split
  · rfl
  · rw [sweep_foldl_events]

/-! ## C4 -/

/-- C4. A file of the Storage Directory, in a directory that can be enumerated,
and a sweep tick whose clock reads `now` when the file is examined: if `now`
minus the last-modified time exceeds 3 600 000 ms and the file can be unlinked,
it is absent after the tick; if the difference is below 3 600 000 ms, the file
is still there after the tick, unchanged. -/
theorem C4_sweep_expiry (dirname : Path) (clock : String → Nat) (fs : FS) (name : String)
    (f : File) (now : Nat) (hwf : fs.WF)
    (hread : uploadDirectory dirname ∉ fs.unreadable)
    (hfile : fs.lookup (uploadDirectory dirname ++ [name]) = some f)
    (hnow : clock name = now) :
    ((now : Int) - (f.mtimeMs : Int) > 3600000 → f.locked = false →
      (sweepTick dirname clock fs).fs.lookup (uploadDirectory dirname ++ [name]) = none)
    ∧ ((now : Int) - (f.mtimeMs : Int) < 3600000 →
      (sweepTick dirname clock fs).fs.lookup (uploadDirectory dirname ++ [name]) = some f) := by
  have hL : (FILE_LIFETIME_MS : Int) = 3600000 := by decide
  have hrd : readdir fs (uploadDirectory dirname)
      = some (fs.files.filterMap (fun e => childName (uploadDirectory dirname) e.1)) := by
    simp [readdir, hread]
  have hvalid := readdir_valid fs hwf _ _ hrd
  have hmem : name ∈ fs.files.filterMap (fun e => childName (uploadDirectory dirname) e.1) :=
    (mem_readdir fs _ _ hrd name).2 ⟨f, lookup_some_mem fs _ f hfile⟩
  subst hnow
  constructor
  · intro hexp hl
    simp only [sweepTick, sweepCallback, hrd]
    exact sweep_foldl_expired dirname clock _ hvalid name f (by rw [hL]; exact hexp) hl _ hmem hfile
  · intro hyoung
    simp only [sweepTick, sweepCallback, hrd]
    exact sweep_foldl_kept dirname clock _ hvalid name f
      (Or.inl (by rw [hL]; omega)) _ hfile

/-- C4: an instance. At time 10 000 000 the stored file of the sample directory,
last written at time 1000, is expired. -/
theorem C4_sweep_expiry_witness :
    ((10000000 : Int) - (sampleFile.mtimeMs : Int) > 3600000 → sampleFile.locked = false →
      (sweepTick sampleDirname (fun _ => 10000000) sampleFS).fs.lookup
        (uploadDirectory sampleDirname ++ ["1000-a.txt"]) = none)
    ∧ ((10000000 : Int) - (sampleFile.mtimeMs : Int) < 3600000 →
      (sweepTick sampleDirname (fun _ => 10000000) sampleFS).fs.lookup
        (uploadDirectory sampleDirname ++ ["1000-a.txt"]) = some sampleFile) :=
  C4_sweep_expiry sampleDirname (fun _ => 10000000) sampleFS "1000-a.txt" sampleFile 10000000
    (by decide) (by decide) (by decide) rfl

/-! ## Well-formedness: lemmas -/

theorem WF_filter (fs : FS) (hwf : fs.WF) (q : Path × File → Bool) :
    FS.WF { fs with files := fs.files.filter q } := by
  constructor
  · exact List.Nodup.sublist ((List.filter_sublist fs.files).map Prod.fst) hwf.1
  · intro e he
    exact hwf.2 e (List.mem_of_mem_filter he)

theorem lookup_of_mem (fs : FS) (hwf : fs.WF) (p : Path) (f : File) (h : (p, f) ∈ fs.files) :
    fs.lookup p = some f := by
  cases hl : fs.lookup p with
  | none =>
    unfold FS.lookup at hl
    simp only [Option.map_eq_none', List.find?_eq_none] at hl
    exact absurd (hl (p, f) h) (by simp)
  | some f' =>
    have hmem := lookup_some_mem fs p f' hl
    have := List.inj_on_of_nodup_map hwf.1 hmem h rfl
    simp only [Prod.mk.injEq, true_and] at this
    rw [this]

theorem readdir_lookup (fs : FS) (hwf : fs.WF) (dir : Path) (ns : List String)
    (h : readdir fs dir = some ns) :
    ∀ n ∈ ns, validSegment n ∧ ∃ f, fs.lookup (dir ++ [n]) = some f := by
  intro n hn
  refine ⟨readdir_valid fs hwf dir ns h n hn, ?_⟩
  obtain ⟨f, hf⟩ := (mem_readdir fs dir ns h n).1 hn
  exact ⟨f, lookup_of_mem fs hwf _ f hf⟩

/-! ## Listing: lemmas -/

theorem fileRecords_spec (fs : FS) (dir : Path) (ns : List String)
    (h : ∀ n ∈ ns, validSegment n ∧ ∃ f, fs.lookup (dir ++ [n]) = some f) :
    ∀ k : Nat, ∃ l, fileRecords fs dir k ns = some l ∧ l.length = ns.length ∧
      ∀ (i : Nat) (n : String), ns[i]? = some n →
        ∃ f, fs.lookup (dir ++ [n]) = some f ∧
          l[i]? = some { id := k + i + 1, name := n, size := f.content.length,
                         uploadDate := f.birthtimeMs, type := "application/octet-stream",
                         url := "/uploads/" ++ n } := by
  induction ns with
  | nil =>
    intro k
    exact ⟨[], rfl, rfl, fun i n hi => absurd hi (by simp)⟩
  | cons a rest ih =>
    intro k
    obtain ⟨hva, fa, hfa⟩ := h a (by simp)
    obtain ⟨l, hl, hlen, hpt⟩ := ih (fun n hn => h n (List.mem_cons_of_mem _ hn)) (k + 1)
    refine ⟨{ id := k + 1, name := a, size := fa.content.length, uploadDate := fa.birthtimeMs,
              type := "application/octet-stream", url := "/uploads/" ++ a } :: l, ?_, ?_, ?_⟩
    · simp only [fileRecords, pathJoin_of_valid dir a hva, stat, fileAt, hfa, hl,
        Bool.false_eq_true, if_false, Option.map_some']
    · simp [hlen]
    · intro i n hi
      cases i with
      | zero =>
        have : a = n := by simpa using hi
        subst this
        exact ⟨fa, hfa, by simp⟩
      | succ j =>
        have hj : rest[j]? = some n := by simpa using hi
        obtain ⟨f, hf, hlj⟩ := hpt j n hj
        refine ⟨f, hf, ?_⟩
        rw [List.getElem?_cons_succ, hlj]
        simp only [Option.some.injEq, ListRecord.mk.injEq, and_true, true_and]
        omega

theorem getFiles_fs (dirname : Path) (fs : FS) : (getFiles dirname fs).fs = fs := by
  unfold getFiles getFilesCallback
  split
  · rfl
  · split <;> rfl

theorem getFiles_excludes (dirname : Path) (fs : FS) (hwf : fs.WF)
    (hread : uploadDirectory dirname ∉ fs.unreadable) (name : String)
    (habs : fs.lookup (uploadDirectory dirname ++ [name]) = none) :
    ∃ l, (getFiles dirname fs).response = some ⟨200, Body.fileList l⟩
      ∧ ∀ r ∈ l, r.name ≠ name := by
  have hrd : readdir fs (uploadDirectory dirname)
      = some (fs.files.filterMap (fun e => childName (uploadDirectory dirname) e.1)) := by
    simp [readdir, hread]
  obtain ⟨l, hl, hlen, hpt⟩ :=
    fileRecords_spec fs (uploadDirectory dirname) _ (readdir_lookup fs hwf _ _ hrd) 0
  refine ⟨l, ?_, ?_⟩
  · simp only [getFiles, getFilesCallback, hrd, hl]
  · intro r hr hname
    obtain ⟨i, hi⟩ := List.mem_iff_getElem?.1 hr
    have hilt : i < l.length := by
      by_contra hge
      rw [List.getElem?_eq_none (by omega)] at hi
      exact absurd hi (by simp)
    rw [hlen] at hilt
    obtain ⟨f', hf', hli⟩ := hpt i _ (List.getElem?_eq_getElem hilt)
    rw [hi] at hli
    have hrn : r.name = (fs.files.filterMap
        (fun e => childName (uploadDirectory dirname) e.1))[i] := by
      rw [Option.some.inj hli]
    rw [← hrn, hname, habs] at hf'
    exact absurd hf' (by simp)

/-! ## C5 -/

/-- C5, counterexample. No file `missing.txt` is in the Storage Directory, and
Delete of that name answers with status 500 and the generic message, not with
404. -/
theorem C5_delete_absent_is_500 :
    readdir sampleFS (uploadDirectory sampleDirname) = some ["1000-a.txt"]
    ∧ (deleteFile sampleDirname "missing.txt" sampleFS).response
        = some ⟨500, Body.error "Internal server error"⟩ := by
  decide

/-- C5, amended. Delete of a name that is not present in the Storage Directory
fails with status 500 and the generic message `Internal server error`, not with
404; the file system is unchanged and no event is published. This holds for
every entry name (a name without `/` other than `.` and `..`) that the
enumeration of the directory does not list, and more generally for every name
whose joined path is not an existing file. -/
theorem C5_delete_absent_generic_failure (dirname : Path) (name : String) (fs : FS)
    (h : (validSegment name ∧ ∃ ns, readdir fs (uploadDirectory dirname) = some ns ∧ name ∉ ns)
      ∨ fs.lookup (pathJoin (uploadDirectory dirname) name).segs = none) :
    (deleteFile dirname name fs).response = some ⟨500, Body.error "Internal server error"⟩
    ∧ (deleteFile dirname name fs).fs = fs
    ∧ (deleteFile dirname name fs).events = [] := by
  have hnone : fs.lookup (pathJoin (uploadDirectory dirname) name).segs = none := by
    rcases h with ⟨hv, ns, hrd, hn⟩ | h
    · rw [pathJoin_of_valid _ _ hv]
      cases hl : fs.lookup (uploadDirectory dirname ++ [name]) with
      | none => rfl
      | some f =>
        exact absurd ((mem_readdir fs _ ns hrd name).2 ⟨f, lookup_some_mem fs _ f hl⟩) hn
    · exact h
  have hu : unlink fs (pathJoin (uploadDirectory dirname) name) = none := by
    apply unlink_of_absent
    unfold fileAt
    split
    · rfl
    · exact hnone
  simp [deleteFile, hu]

/-- C5, amended: an instance, the name `missing.txt`, which the enumeration of the
sample directory does not list. -/
theorem C5_delete_absent_generic_failure_witness :
    (deleteFile sampleDirname "missing.txt" sampleFS).response
        = some ⟨500, Body.error "Internal server error"⟩
    ∧ (deleteFile sampleDirname "missing.txt" sampleFS).fs = sampleFS
    ∧ (deleteFile sampleDirname "missing.txt" sampleFS).events = [] :=
  C5_delete_absent_generic_failure sampleDirname "missing.txt" sampleFS
    (Or.inl ⟨by decide, ["1000-a.txt"], by decide, by decide⟩)

/-! ## C6 -/

/-- C6. A name present in the Storage Directory, in a well-formed file system
whose Storage Directory can be enumerated. If the file can be unlinked, Delete
answers 200, removes the file at that name and no other (the remaining files
keep their order and content), a following List() answers 200 with no record of
that name, and exactly one event, `fileDeleted` naming the file, is published.
If the removal fails, for this or any other name, the file system is unchanged
and no event is published. -/
theorem C6_delete_frame (dirname : Path) (fs : FS) (name : String) (f : File) (hwf : fs.WF)
    (hread : uploadDirectory dirname ∉ fs.unreadable)
    (hfile : fs.lookup (uploadDirectory dirname ++ [name]) = some f) :
    (f.locked = false →
      (deleteFile dirname name fs).response
          = some ⟨200, Body.message "File deleted successfully"⟩
      ∧ (deleteFile dirname name fs).fs.files
          = fs.files.filter (fun e => decide (e.1 ≠ uploadDirectory dirname ++ [name]))
      ∧ (deleteFile dirname name fs).fs.lookup (uploadDirectory dirname ++ [name]) = none
      ∧ (∀ p : Path, p ≠ uploadDirectory dirname ++ [name] →
          (deleteFile dirname name fs).fs.lookup p = fs.lookup p)
      ∧ (∃ l, (getFiles dirname (deleteFile dirname name fs).fs).response
                = some ⟨200, Body.fileList l⟩ ∧ ∀ r ∈ l, r.name ≠ name)
      ∧ (deleteFile dirname name fs).events = [Event.fileDeleted name])
    ∧ (∀ n : String, unlink fs (pathJoin (uploadDirectory dirname) n) = none →
        (deleteFile dirname n fs).fs = fs ∧ (deleteFile dirname n fs).events = []) := by
  have hv : validSegment name := lookup_valid fs hwf _ name f hfile
  constructor
  · intro hl
    have hu := unlink_of_file fs _ f hfile hl
    have hd : deleteFile dirname name fs =
        { fs := { fs with files :=
                    fs.files.filter (fun e => decide (e.1 ≠ uploadDirectory dirname ++ [name])) }
          events := [Event.fileDeleted name]
          response := some ⟨200, Body.message "File deleted successfully"⟩ } := by
      simp only [deleteFile, pathJoin_of_valid _ _ hv, hu]
    rw [hd]
    refine ⟨rfl, rfl, lookup_filter_self fs _, fun p hp => lookup_filter_ne fs _ p hp, ?_, rfl⟩
    exact getFiles_excludes dirname _ (WF_filter fs hwf _) hread name (lookup_filter_self fs _)
  · intro n hn
    simp [deleteFile, hn]

/-- C6: an instance, Delete of the stored file of the sample directory. -/
theorem C6_delete_frame_witness :
    (sampleFile.locked = false →
      (deleteFile sampleDirname "1000-a.txt" sampleFS).response
          = some ⟨200, Body.message "File deleted successfully"⟩
      ∧ (deleteFile sampleDirname "1000-a.txt" sampleFS).fs.files
          = sampleFS.files.filter
              (fun e => decide (e.1 ≠ uploadDirectory sampleDirname ++ ["1000-a.txt"]))
      ∧ (deleteFile sampleDirname "1000-a.txt" sampleFS).fs.lookup
          (uploadDirectory sampleDirname ++ ["1000-a.txt"]) = none
      ∧ (∀ p : Path, p ≠ uploadDirectory sampleDirname ++ ["1000-a.txt"] →
          (deleteFile sampleDirname "1000-a.txt" sampleFS).fs.lookup p = sampleFS.lookup p)
      ∧ (∃ l, (getFiles sampleDirname (deleteFile sampleDirname "1000-a.txt" sampleFS).fs).response
                = some ⟨200, Body.fileList l⟩ ∧ ∀ r ∈ l, r.name ≠ "1000-a.txt")
      ∧ (deleteFile sampleDirname "1000-a.txt" sampleFS).events
          = [Event.fileDeleted "1000-a.txt"])
    ∧ (∀ n : String, unlink sampleFS (pathJoin (uploadDirectory sampleDirname) n) = none →
        (deleteFile sampleDirname n sampleFS).fs = sampleFS
        ∧ (deleteFile sampleDirname n sampleFS).events = []) :=
  C6_delete_frame sampleDirname sampleFS "1000-a.txt" sampleFile (by decide) (by decide)
    (by decide)

/-! ## C10 -/

/-- C10. In a well-formed file system whose Storage Directory enumerates as `ns`,
List() answers 200 with exactly as many records as `ns` has names, in that
order: the record at position `i` (counted from 0) has id `i + 1`, the name at
position `i` of `ns`, the byte length of the file of that name as size, and the
url `/uploads/` followed by the name. List() changes nothing, so a second
List() gives the same answer. -/
theorem C10_listing (dirname : Path) (fs : FS) (ns : List String) (hwf : fs.WF)
    (hread : readdir fs (uploadDirectory dirname) = some ns) :
    (∃ l, (getFiles dirname fs).response = some ⟨200, Body.fileList l⟩
      ∧ l.length = ns.length
      ∧ ∀ (i : Nat) (n : String), ns[i]? = some n →
          ∃ f, fs.lookup (uploadDirectory dirname ++ [n]) = some f ∧
            l[i]? = some { id := i + 1, name := n, size := f.content.length,
                           uploadDate := f.birthtimeMs, type := "application/octet-stream",
                           url := "/uploads/" ++ n })
    ∧ (getFiles dirname fs).fs = fs
    ∧ getFiles dirname (getFiles dirname fs).fs = getFiles dirname fs := by
  refine ⟨?_, getFiles_fs dirname fs, by rw [getFiles_fs]⟩
  obtain ⟨l, hl, hlen, hpt⟩ :=
    fileRecords_spec fs (uploadDirectory dirname) ns (readdir_lookup fs hwf _ _ hread) 0
  refine ⟨l, ?_, hlen, ?_⟩
  · simp only [getFiles, getFilesCallback, hread, hl]
  · intro i n hi
    obtain ⟨f, hf, hli⟩ := hpt i n hi
    exact ⟨f, hf, by simpa using hli⟩

/-- C10: an instance, the listing of the sample directory. -/
theorem C10_listing_witness :
    (∃ l, (getFiles sampleDirname sampleFS).response = some ⟨200, Body.fileList l⟩
      ∧ l.length = ["1000-a.txt"].length
      ∧ ∀ (i : Nat) (n : String), ["1000-a.txt"][i]? = some n →
          ∃ f, sampleFS.lookup (uploadDirectory sampleDirname ++ [n]) = some f ∧
            l[i]? = some { id := i + 1, name := n, size := f.content.length,
                           uploadDate := f.birthtimeMs, type := "application/octet-stream",
                           url := "/uploads/" ++ n })
    ∧ (getFiles sampleDirname sampleFS).fs = sampleFS
    ∧ getFiles sampleDirname (getFiles sampleDirname sampleFS).fs
        = getFiles sampleDirname sampleFS :=
  C10_listing sampleDirname sampleFS ["1000-a.txt"] (by decide) (by decide)

/-! ## Delete all: lemmas -/

theorem unlinkCounted_fs (fs : FS) (hwf : fs.WF) (d : Nat) (p : Path) :
    (unlinkCounted (fs, d) ⟨p, false⟩).1
      = { fs with files := fs.files.filter (fun e => e.2.locked || decide (e.1 ≠ p)) } := by
  unfold unlinkCounted
  cases hl : fs.lookup p with
  | none =>
    have hu : unlink fs ⟨p, false⟩ = none := unlink_of_absent fs _ (by simp [fileAt, hl])
    simp only [hu]
    have hall : ∀ e ∈ fs.files, (e.2.locked || decide (e.1 ≠ p)) = true := by
      intro e he
      unfold FS.lookup at hl
      simp only [Option.map_eq_none', List.find?_eq_none] at hl
      have hne : ¬ e.1 = p := by simpa using hl e he
      simp [hne]
    rw [List.filter_eq_self.2 hall]
  | some f =>
    have hone : ∀ e ∈ fs.files, e.1 = p → e.2 = f := by
      intro e he hp
      have h1 := lookup_of_mem fs hwf e.1 e.2 he
      rw [hp, hl] at h1
      exact (Option.some.inj h1).symm
    cases hlock : f.locked with
    | true =>
      simp only [unlink_of_locked fs p f hl hlock]
      have hall : ∀ e ∈ fs.files, (e.2.locked || decide (e.1 ≠ p)) = true := by
        intro e he
        by_cases hp : e.1 = p
        · rw [hone e he hp, hlock]; rfl
        · simp [hp]
      rw [List.filter_eq_self.2 hall]
    | false =>
      simp only [unlink_of_file fs p f hl hlock]
      have hc : fs.files.filter (fun e => decide (e.1 ≠ p))
          = fs.files.filter (fun e => e.2.locked || decide (e.1 ≠ p)) := by
        apply List.filter_congr
        intro e he
        by_cases hp : e.1 = p
        · rw [hone e he hp, hlock]; simp [hp]
        · simp [hp]
      rw [hc]

theorem deleteAll_foldl_fs (dir : Path) (ns : List String) :
    ∀ (fs : FS) (d : Nat), fs.WF →
      ((ns.map (fun n => (⟨dir ++ [n], false⟩ : ResolvedPath))).foldl unlinkCounted (fs, d)).1
        = { files := fs.files.filter
              (fun e => e.2.locked || !(decide (e.1 ∈ ns.map (fun n => dir ++ [n]))))
            unreadable := fs.unreadable } := by
  induction ns with
  | nil => intro fs d _; simp
  | cons a rest ih =>
    intro fs d hwf
    rw [List.map_cons, List.foldl_cons]
    have hstep := unlinkCounted_fs fs hwf d (dir ++ [a])
    have hpair : unlinkCounted (fs, d) ⟨dir ++ [a], false⟩
        = ((unlinkCounted (fs, d) ⟨dir ++ [a], false⟩).1,
           (unlinkCounted (fs, d) ⟨dir ++ [a], false⟩).2) := rfl
    rw [hpair, hstep, ih _ _ (WF_filter fs hwf _)]
    simp only [List.filter_filter]
    have hc : fs.files.filter (fun e =>
          (e.2.locked || !(decide (e.1 ∈ rest.map (fun n => dir ++ [n]))))
            && (e.2.locked || decide (e.1 ≠ dir ++ [a])))
        = fs.files.filter (fun e =>
            e.2.locked || !(decide (e.1 ∈ (a :: rest).map (fun n => dir ++ [n])))) := by
      apply List.filter_congr
      intro e _
      by_cases h1 : e.1 = dir ++ [a] <;> cases e.2.locked <;> simp [h1]
    rw [hc]

theorem readdir_after_deleteAll (fs : FS) (hwf : fs.WF) (dir : Path) (ns : List String)
    (hns : ns = fs.files.filterMap (fun e => childName dir e.1)) :
    ∀ l : List (Path × File), (∀ e ∈ l, e ∈ fs.files) →
      (l.filter (fun e => e.2.locked || !(decide (e.1 ∈ ns.map (fun n => dir ++ [n]))))).filterMap
          (fun e => childName dir e.1)
        = (l.filterMap (fun e => childName dir e.1)).filter
            (fun n => (unlink fs (pathJoin dir n)).isNone) := by
  intro l
  induction l with
  | nil => intro _; rfl
  | cons e rest ih =>
    intro hsub
    have he : e ∈ fs.files := hsub e (by simp)
    have ih' := ih (fun x hx => hsub x (List.mem_cons_of_mem _ hx))
    cases hc : childName dir e.1 with
    | none =>
      rw [List.filter_cons]
      split
      · simp only [List.filterMap_cons, hc]; exact ih'
      · simp only [List.filterMap_cons, hc]; exact ih'
    | some n =>
      have hp : e.1 = dir ++ [n] := childName_some dir e.1 n hc
      have hv : validSegment n := hwf.2 e he n (by rw [hp]; simp)
      have hlook : fs.lookup (dir ++ [n]) = some e.2 :=
        lookup_of_mem fs hwf _ _ (by rw [← hp]; exact he)
      have hmem : e.1 ∈ ns.map (fun n => dir ++ [n]) := by
        rw [hns, List.mem_map]
        exact ⟨n, List.mem_filterMap.2 ⟨e, he, hc⟩, hp.symm⟩
      simp only [List.filterMap_cons, hc, List.filter_cons, pathJoin_of_valid dir n hv]
      cases hlock : e.2.locked with
      | true =>
        rw [unlink_of_locked fs _ e.2 hlook hlock]
        simp only [Bool.true_or, if_true, Option.isNone_none, List.filterMap_cons, hc]
        rw [ih']
      | false =>
        rw [unlink_of_file fs _ e.2 hlook hlock]
        simp only [hmem, decide_True, Bool.not_true, Bool.or_self, Bool.false_eq_true, if_false,
          Option.isNone_some]
        exact ih'

/-! ## C7 -/

/-- C7. In a well-formed file system whose Storage Directory enumerates as `ns`,
DeleteAll hands every entry of `ns` to `unlink`, answers with status 200 whether
or not removals fail, publishes exactly one `allFilesDeleted` event, and
afterwards the directory enumerates as exactly the entries of `ns` whose removal
fails, in their order: it is empty when no removal fails. -/
theorem C7_deleteAll_tolerant (dirname : Path) (fs : FS) (ns : List String) (hwf : fs.WF)
    (hread : readdir fs (uploadDirectory dirname) = some ns) :
    (deleteAll dirname fs).requested = ns.map (fun n => pathJoin (uploadDirectory dirname) n)
    ∧ (deleteAll dirname fs).outcome.response
        = some ⟨200, Body.message "Requested deletion of all files. Deleted: 0"⟩
    ∧ (deleteAll dirname fs).outcome.events = [Event.allFilesDeleted]
    ∧ readdir (deleteAll dirname fs).outcome.fs (uploadDirectory dirname)
        = some (ns.filter (fun n => (unlink fs (pathJoin (uploadDirectory dirname) n)).isNone))
    ∧ ((∀ n ∈ ns, (unlink fs (pathJoin (uploadDirectory dirname) n)).isSome) →
        readdir (deleteAll dirname fs).outcome.fs (uploadDirectory dirname) = some []) := by
  have hvalid := readdir_valid fs hwf _ ns hread
  have hunr : uploadDirectory dirname ∉ fs.unreadable := by
    intro hmem
    simp [readdir, hmem] at hread
  have hns : ns = fs.files.filterMap (fun e => childName (uploadDirectory dirname) e.1) := by
    simpa [readdir, hunr] using hread.symm
  have hmap : ns.map (fun n => pathJoin (uploadDirectory dirname) n)
      = ns.map (fun n => (⟨uploadDirectory dirname ++ [n], false⟩ : ResolvedPath)) :=
    List.map_congr_left (fun n hn => pathJoin_of_valid _ n (hvalid n hn))
  have hfs : (deleteAll dirname fs).outcome.fs
      = { files := fs.files.filter (fun e => e.2.locked ||
            !(decide (e.1 ∈ ns.map (fun n => uploadDirectory dirname ++ [n]))))
          unreadable := fs.unreadable } := by
    simp only [deleteAll, deleteAllCallback, hread, hmap]
    exact deleteAll_foldl_fs (uploadDirectory dirname) ns fs 0 hwf
  have hafter : readdir (deleteAll dirname fs).outcome.fs (uploadDirectory dirname)
      = some (ns.filter
          (fun n => (unlink fs (pathJoin (uploadDirectory dirname) n)).isNone)) := by
    rw [hfs]
    simp only [readdir, hunr, if_false, Option.some.injEq]
    rw [readdir_after_deleteAll fs hwf (uploadDirectory dirname) ns hns fs.files
      (fun e he => he), ← hns]
  refine ⟨?_, ?_, ?_, hafter, ?_⟩
  · simp only [deleteAll, deleteAllCallback, hread]
  · simp only [deleteAll, deleteAllCallback, hread]
    rfl
  · simp only [deleteAll, deleteAllCallback, hread]
  · intro hall
    rw [hafter, List.filter_eq_nil_iff.2]
    intro n hn
    have := hall n hn
    cases hu : unlink fs (pathJoin (uploadDirectory dirname) n) with
    | none => rw [hu] at this; exact absurd this (by simp)
    | some _ => simp

/-- C7: an instance, a directory of three files whose second cannot be unlinked:
only that one is left. -/
theorem C7_deleteAll_tolerant_witness :
    ((deleteAll sampleDirname sampleLockedFS).requested
        = ["1000-a.txt", "2000-b.bin", "3000-c.txt"].map
            (fun n => pathJoin (uploadDirectory sampleDirname) n)
      ∧ (deleteAll sampleDirname sampleLockedFS).outcome.response
          = some ⟨200, Body.message "Requested deletion of all files. Deleted: 0"⟩
      ∧ (deleteAll sampleDirname sampleLockedFS).outcome.events = [Event.allFilesDeleted]
      ∧ readdir (deleteAll sampleDirname sampleLockedFS).outcome.fs
            (uploadDirectory sampleDirname)
          = some (["1000-a.txt", "2000-b.bin", "3000-c.txt"].filter
              (fun n => (unlink sampleLockedFS
                (pathJoin (uploadDirectory sampleDirname) n)).isNone))
      ∧ ((∀ n ∈ ["1000-a.txt", "2000-b.bin", "3000-c.txt"],
            (unlink sampleLockedFS (pathJoin (uploadDirectory sampleDirname) n)).isSome) →
          readdir (deleteAll sampleDirname sampleLockedFS).outcome.fs
            (uploadDirectory sampleDirname) = some []))
    ∧ readdir (deleteAll sampleDirname sampleLockedFS).outcome.fs
          (uploadDirectory sampleDirname) = some ["2000-b.bin"] :=
  ⟨C7_deleteAll_tolerant sampleDirname sampleLockedFS ["1000-a.txt", "2000-b.bin", "3000-c.txt"]
    (by decide) (by decide), by decide⟩

/-! ## Stored names: lemmas -/

theorem digitChar_mem (k : Nat) (h : k < 10) :
    Nat.digitChar k ∈ ['0', '1', '2', '3', '4', '5', '6', '7', '8', '9'] := by
  interval_cases k <;> decide

theorem digitValue_digitChar (k : Nat) (h : k < 10) : digitValue (Nat.digitChar k) = k := by
  interval_cases k <;> decide

theorem decimalValue_cons (acc : Nat) (c : Char) (cs : List Char) :
    decimalValue acc (c :: cs) = decimalValue (acc * 10 + digitValue c) cs := rfl

theorem toDigitsCore_succ (fuel n : Nat) (ds : List Char) :
    Nat.toDigitsCore 10 (fuel + 1) n ds =
      if n / 10 = 0 then Nat.digitChar (n % 10) :: ds
      else Nat.toDigitsCore 10 fuel (n / 10) (Nat.digitChar (n % 10) :: ds) := rfl

theorem toDigitsCore_value (fuel : Nat) :
    ∀ (n : Nat) (ds : List Char), n < fuel →
      decimalValue 0 (Nat.toDigitsCore 10 fuel n ds) = decimalValue n ds := by
  induction fuel with
  | zero => intro n ds h; omega
  | succ fuel ih =>
    intro n ds h
    have hm := digitValue_digitChar (n % 10) (Nat.mod_lt n (by decide : 10 > 0))
    rw [toDigitsCore_succ]
    by_cases h0 : n / 10 = 0
    · have e : 0 * 10 + n % 10 = n := by omega
      rw [if_pos h0, decimalValue_cons, hm, e]
    · have e : n / 10 * 10 + n % 10 = n := by omega
      have hlt : n / 10 < fuel := by omega
      rw [if_neg h0, ih _ _ hlt, decimalValue_cons, hm, e]

theorem toDigitsCore_digits (fuel : Nat) :
    ∀ (n : Nat) (ds : List Char),
      (∀ c ∈ ds, c ∈ ['0', '1', '2', '3', '4', '5', '6', '7', '8', '9']) →
      ∀ c ∈ Nat.toDigitsCore 10 fuel n ds,
        c ∈ ['0', '1', '2', '3', '4', '5', '6', '7', '8', '9'] := by
  induction fuel with
  | zero => intro n ds h; exact h
  | succ fuel ih =>
    intro n ds h
    have hd := digitChar_mem (n % 10) (Nat.mod_lt _ (by decide))
    have h' : ∀ c ∈ Nat.digitChar (n % 10) :: ds,
        c ∈ ['0', '1', '2', '3', '4', '5', '6', '7', '8', '9'] := by
      intro c hc
      rcases List.mem_cons.1 hc with e | e
      · rw [e]; exact hd
      · exact h c e
    rw [toDigitsCore_succ]
    by_cases h0 : n / 10 = 0
    · rw [if_pos h0]; exact h'
    · rw [if_neg h0]; exact ih _ _ h'

theorem toDigits_value (n : Nat) : decimalValue 0 (Nat.toDigits 10 n) = n := by
  rw [Nat.toDigits, toDigitsCore_value (n + 1) n [] (Nat.lt_succ_self n)]
  rfl

theorem toDigits_injective (a b : Nat) (h : Nat.toDigits 10 a = Nat.toDigits 10 b) : a = b := by
  have e := congrArg (decimalValue 0) h
  rw [toDigits_value, toDigits_value] at e
  exact e

theorem toDigits_digits (n : Nat) :
    ∀ c ∈ Nat.toDigits 10 n, c ∈ ['0', '1', '2', '3', '4', '5', '6', '7', '8', '9'] := by
  rw [Nat.toDigits]
  exact toDigitsCore_digits (n + 1) n [] (fun c hc => absurd hc (by simp))

theorem toDigits_not_mem (n : Nat) (c : Char)
    (hc : c ∉ ['0', '1', '2', '3', '4', '5', '6', '7', '8', '9']) : c ∉ Nat.toDigits 10 n :=
  fun h => hc (toDigits_digits n c h)

theorem append_cons_cancel {α : Type} (c : α) :
    ∀ (xs ys xs' ys' : List α), c ∉ xs → c ∉ xs' → xs ++ c :: ys = xs' ++ c :: ys' →
      xs = xs' ∧ ys = ys' := by
  intro xs
  induction xs with
  | nil =>
    intro ys xs' ys' _ h' e
    cases xs' with
    | nil => simpa using e
    | cons x xs' =>
      simp only [List.nil_append, List.cons_append, List.cons.injEq] at e
      exact absurd (by simp [e.1]) h'
  | cons x xs ih =>
    intro ys xs' ys' h h' e
    cases xs' with
    | nil =>
      simp only [List.nil_append, List.cons_append, List.cons.injEq] at e
      exact absurd (by simp [e.1]) h
    | cons x' xs' =>
      simp only [List.cons_append, List.cons.injEq] at e
      obtain ⟨r1, r2⟩ := ih ys xs' ys' (fun m => h (List.mem_cons_of_mem _ m))
        (fun m => h' (List.mem_cons_of_mem _ m)) e.2
      exact ⟨by rw [e.1, r1], r2⟩

theorem filename_data (t : Nat) (n : String) :
    (filename t n).data = Nat.toDigits 10 t ++ '-' :: n.data := by
  simp [filename, toString, Nat.repr, List.asString]

theorem filename_injective (t1 t2 : Nat) (n1 n2 : String)
    (h : filename t1 n1 = filename t2 n2) : t1 = t2 ∧ n1 = n2 := by
  have hd := congrArg String.data h
  rw [filename_data, filename_data] at hd
  obtain ⟨r1, r2⟩ := append_cons_cancel '-' _ _ _ _
    (toDigits_not_mem t1 '-' (by decide)) (toDigits_not_mem t2 '-' (by decide)) hd
  exact ⟨toDigits_injective t1 t2 r1, String.ext r2⟩

theorem filename_valid (t : Nat) (n : String) (h : '/' ∉ n.data) :
    validSegment (filename t n) := by
  have hmem : '-' ∈ (filename t n).data := by rw [filename_data]; simp
  refine ⟨?_, ?_, ?_, ?_⟩
  · intro e; rw [e] at hmem; exact absurd hmem (by decide)
  · intro e; rw [e] at hmem; exact absurd hmem (by decide)
  · intro e; rw [e] at hmem; exact absurd hmem (by decide)
  · rw [filename_data]
    intro hm
    rcases List.mem_append.1 hm with h1 | h1
    · exact toDigits_not_mem t '/' (by decide) h1
    · rcases List.mem_cons.1 h1 with h2 | h2
      · exact absurd h2 (by decide)
      · exact h h2

/-! ## Upload: lemmas -/

theorem find?_map_update (l : List (Path × File)) (g : Path × File → Path × File)
    (hg : ∀ e, (g e).1 = e.1) (q : Path) :
    (l.map g).find? (fun e => decide (e.1 = q))
      = (l.find? (fun e => decide (e.1 = q))).map g := by
  induction l with
  | nil => rfl
  | cons e rest ih =>
    rw [List.map_cons]
    by_cases h : e.1 = q
    · rw [List.find?_cons_of_pos _ (by simpa [hg e] using h),
        List.find?_cons_of_pos _ (by simpa using h)]
      rfl
    · rw [List.find?_cons_of_neg _ (by simpa [hg e] using h),
        List.find?_cons_of_neg _ (by simpa using h)]
      exact ih

/-- The file system after a write at `p`, as `writeFile` builds it. -/
theorem writeFile_spec (fs : FS) (p : Path) (bytes : List Nat) (now : Nat) (hwf : fs.WF)
    (hp : validPath p) :
    ∃ fs' f, writeFile fs ⟨p, false⟩ bytes now = some fs' ∧ fs'.WF
      ∧ fs'.unreadable = fs.unreadable
      ∧ fs'.lookup p = some f ∧ f.content = bytes
      ∧ ∀ q : Path, q ≠ p → fs'.lookup q = fs.lookup q := by
  cases hl : fs.lookup p with
  | some f0 =>
    let g : Path × File → Path × File := fun e =>
      if e.1 = p then (e.1, { e.2 with content := bytes, mtimeMs := now }) else e
    have hg : ∀ e, (g e).1 = e.1 := by
      intro e
      by_cases h : e.1 = p <;> simp [g, h]
    have hmapfst : (fs.files.map g).map Prod.fst = fs.files.map Prod.fst := by
      rw [List.map_map]
      exact List.map_congr_left (fun e _ => hg e)
    refine ⟨{ fs with files := fs.files.map g },
      { f0 with content := bytes, mtimeMs := now }, ?_, ?_, rfl, ?_, rfl, ?_⟩
    · simp only [writeFile, hl, Bool.false_eq_true, if_false]
    · constructor
      · show ((fs.files.map g).map Prod.fst).Nodup
        rw [hmapfst]; exact hwf.1
      · intro e he
        obtain ⟨e0, he0, rfl⟩ := List.mem_map.1 he
        rw [hg e0]
        exact hwf.2 e0 he0
    · have hfind : fs.files.find? (fun e => decide (e.1 = p)) = some (p, f0) := by
        have hmem := lookup_some_mem fs p f0 hl
        unfold FS.lookup at hl
        cases hf : fs.files.find? (fun e => decide (e.1 = p)) with
        | none => rw [hf] at hl; exact absurd hl (by simp)
        | some e =>
          rw [hf] at hl
          have h1 : e.1 = p := by simpa using List.find?_some hf
          have h2 : e.2 = f0 := by simpa using hl
          rw [← h1, ← h2]
      show ((fs.files.map g).find? (fun e => decide (e.1 = p))).map Prod.snd = _
      rw [find?_map_update fs.files g hg p, hfind]
      simp [g]
    · intro q hq
      show ((fs.files.map g).find? (fun e => decide (e.1 = q))).map Prod.snd
        = (fs.files.find? (fun e => decide (e.1 = q))).map Prod.snd
      rw [find?_map_update fs.files g hg q]
      cases hf : fs.files.find? (fun e => decide (e.1 = q)) with
      | none => rfl
      | some e =>
        have h1 : e.1 = q := by simpa using List.find?_some hf
        have h2 : ¬ e.1 = p := fun h => hq (h1.symm.trans h)
        simp [g, h2]
  | none =>
    have hnone : ∀ e ∈ fs.files, ¬ e.1 = p := by
      intro e he
      unfold FS.lookup at hl
      simp only [Option.map_eq_none', List.find?_eq_none] at hl
      simpa using hl e he
    let fnew : File := ⟨bytes, now, now, false⟩
    refine ⟨{ fs with files := fs.files ++ [(p, fnew)] }, fnew, ?_, ?_, rfl, ?_, rfl, ?_⟩
    · simp only [writeFile, hl, Bool.false_eq_true, if_false]
    · constructor
      · show ((fs.files ++ [(p, fnew)]).map Prod.fst).Nodup
        rw [List.map_append, List.nodup_append]
        refine ⟨hwf.1, by simp, ?_⟩
        intro a ha hb
        obtain ⟨e, he, rfl⟩ := List.mem_map.1 ha
        have : e.1 = p := by simpa using hb
        exact hnone e he this
      · intro e he
        rcases List.mem_append.1 he with h | h
        · exact hwf.2 e h
        · have : e = (p, fnew) := by simpa using h
          rw [this]; exact hp
    · show ((fs.files ++ [(p, fnew)]).find? (fun e => decide (e.1 = p))).map Prod.snd = _
      rw [List.find?_append, List.find?_eq_none.2 (fun e he => by simpa using hnone e he)]
      simp
    · intro q hq
      show ((fs.files ++ [(p, fnew)]).find? (fun e => decide (e.1 = q))).map Prod.snd
        = (fs.files.find? (fun e => decide (e.1 = q))).map Prod.snd
      rw [List.find?_append]
      have : ([(p, fnew)].find? (fun e => decide (e.1 = q))) = none := by
        simp [Ne.symm hq]
      rw [this]
      simp

theorem validPath_upload (dirname : Path) (hdn : validPath dirname) (n : String)
    (hn : validSegment n) : validPath (uploadDirectory dirname ++ [n]) := by
  rw [uploadDirectory_eq]
  intro s hs
  rcases List.mem_append.1 hs with h | h
  · rcases List.mem_append.1 h with h' | h'
    · exact hdn s h'
    · have : s = "uploads" := by simpa using h'
      rw [this]; decide
  · have : s = n := by simpa using h
    rw [this]; exact hn

/-- A successful upload: what `postUpload` leaves and answers for a part whose
name has no separator and whose size is within the limit. -/
theorem postUpload_spec (dirname : Path) (clock : UploadClock) (file : FilePart)
    (isEncrypted : Option String) (fs : FS) (hwf : fs.WF) (hdn : validPath dirname)
    (hname : '/' ∉ file.originalname.data) (hsize : file.bytes.length ≤ fileSize) :
    ∃ fs' f, (postUpload dirname clock (some file) isEncrypted fs)
        = { fs := fs'
            events := [Event.fileUploaded
              { id := clock.idTime
                name := filename clock.nameTime file.originalname
                originalName := file.originalname
                size := file.bytes.length
                type := file.mimetype
                timeStamp := clock.stampTime
                uploadDate := clock.dateTime
                url := "/uploads/" ++ filename clock.nameTime file.originalname
                isEncrypted := decide (isEncrypted = some "true") }]
            response := some ⟨200, Body.uploaded "File uploaded successfully"
              { id := clock.idTime
                name := filename clock.nameTime file.originalname
                originalName := file.originalname
                size := file.bytes.length
                type := file.mimetype
                timeStamp := clock.stampTime
                uploadDate := clock.dateTime
                url := "/uploads/" ++ filename clock.nameTime file.originalname
                isEncrypted := decide (isEncrypted = some "true") }⟩ }
      ∧ fs'.WF ∧ fs'.unreadable = fs.unreadable
      ∧ fs'.lookup (uploadDirectory dirname ++ [filename clock.nameTime file.originalname])
          = some f
      ∧ f.content = file.bytes
      ∧ ∀ q : Path, q ≠ uploadDirectory dirname ++ [filename clock.nameTime file.originalname] →
          fs'.lookup q = fs.lookup q := by
  have hv := filename_valid clock.nameTime file.originalname hname
  obtain ⟨fs', f, hw, hwf', hunr, hlook, hcont, hother⟩ :=
    writeFile_spec fs (uploadDirectory dirname ++ [filename clock.nameTime file.originalname])
      file.bytes clock.writeTime hwf (validPath_upload dirname hdn _ hv)
  refine ⟨fs', f, ?_, hwf', hunr, hlook, hcont, hother⟩
  have hsz : ¬ file.bytes.length > fileSize := by omega
  simp only [postUpload, diskStorage, if_neg hsz, pathJoin_of_valid _ _ hv, hw]

theorem getFiles_includes (dirname : Path) (fs : FS) (hwf : fs.WF)
    (hread : uploadDirectory dirname ∉ fs.unreadable) :
    ∃ l, (getFiles dirname fs).response = some ⟨200, Body.fileList l⟩
      ∧ ∀ (n : String) (f : File), fs.lookup (uploadDirectory dirname ++ [n]) = some f →
          ∃ r ∈ l, r.name = n ∧ r.size = f.content.length := by
  have hrd : readdir fs (uploadDirectory dirname)
      = some (fs.files.filterMap (fun e => childName (uploadDirectory dirname) e.1)) := by
    simp [readdir, hread]
  obtain ⟨l, hl, _, hpt⟩ :=
    fileRecords_spec fs (uploadDirectory dirname) _ (readdir_lookup fs hwf _ _ hrd) 0
  refine ⟨l, ?_, ?_⟩
  · simp only [getFiles, getFilesCallback, hrd, hl]
  · intro n f hf
    have hmem := (mem_readdir fs _ _ hrd n).2 ⟨f, lookup_some_mem fs _ f hf⟩
    obtain ⟨i, hi⟩ := List.mem_iff_getElem?.1 hmem
    obtain ⟨f', hf', hli⟩ := hpt i n hi
    rw [hf] at hf'
    cases hf'
    exact ⟨_, List.mem_iff_getElem?.2 ⟨i, hli⟩, rfl, rfl⟩

/-! ## C8 -/

/-- C8, counterexample. Two different uploads, both named `a.txt`, whose names are
formed in the same millisecond: both are answered with status 200, both get the
stored name `1700000000000-a.txt`, the second overwrites the first, and the
following List() has a single record. -/
theorem C8_same_name_same_millisecond :
    partA ≠ partA2
    ∧ filename sampleClock.nameTime partA.originalname
        = filename sampleClock.nameTime partA2.originalname
    ∧ (postUpload sampleDirname sampleClock (some partA) none emptyFS).response.map
        Response.status = some 200
    ∧ (postUpload sampleDirname sampleClock (some partA2) none
        (postUpload sampleDirname sampleClock (some partA) none emptyFS).fs).response.map
        Response.status = some 200
    ∧ (getFiles sampleDirname
        (postUpload sampleDirname sampleClock (some partA2) none
          (postUpload sampleDirname sampleClock (some partA) none emptyFS).fs).fs).response
        = some ⟨200, Body.fileList
            [{ id := 1, name := "1700000000000-a.txt", size := 2, uploadDate := 1700000000001,
               type := "application/octet-stream", url := "/uploads/1700000000000-a.txt" }]⟩ := by
  decide

/-- C8, amended. Two uploads whose names are formed at different clock readings,
or whose original names differ, receive different stored names; when both parts
are within the size limit and their names have no separator, both uploads are
answered with status 200 and a following List() has a record for each of the
two stored names, with the size of the respective part. (Two uploads of the same
original name in the same millisecond receive the same stored name.) -/
theorem C8_distinct_stored_names (dirname : Path) (c1 c2 : UploadClock) (p1 p2 : FilePart)
    (e1 e2 : Option String) (fs : FS) (hwf : fs.WF) (hdn : validPath dirname)
    (hread : uploadDirectory dirname ∉ fs.unreadable)
    (hn1 : '/' ∉ p1.originalname.data) (hn2 : '/' ∉ p2.originalname.data)
    (hs1 : p1.bytes.length ≤ fileSize) (hs2 : p2.bytes.length ≤ fileSize)
    (hne : c1.nameTime ≠ c2.nameTime ∨ p1.originalname ≠ p2.originalname) :
    filename c1.nameTime p1.originalname ≠ filename c2.nameTime p2.originalname
    ∧ (postUpload dirname c1 (some p1) e1 fs).response.map Response.status = some 200
    ∧ (postUpload dirname c2 (some p2) e2
        (postUpload dirname c1 (some p1) e1 fs).fs).response.map Response.status = some 200
    ∧ ∃ l, (getFiles dirname (postUpload dirname c2 (some p2) e2
              (postUpload dirname c1 (some p1) e1 fs).fs).fs).response
            = some ⟨200, Body.fileList l⟩
        ∧ (∃ r ∈ l, r.name = filename c1.nameTime p1.originalname ∧ r.size = p1.bytes.length)
        ∧ (∃ r ∈ l, r.name = filename c2.nameTime p2.originalname
            ∧ r.size = p2.bytes.length) := by
  have hdiff : filename c1.nameTime p1.originalname ≠ filename c2.nameTime p2.originalname := by
    intro e
    obtain ⟨h1, h2⟩ := filename_injective _ _ _ _ e
    rcases hne with h | h
    · exact h h1
    · exact h h2
  obtain ⟨fs1, f1, ho1, hwf1, hunr1, hl1, hc1, _⟩ :=
    postUpload_spec dirname c1 p1 e1 fs hwf hdn hn1 hs1
  rw [ho1]
  simp only
  obtain ⟨fs2, f2, ho2, hwf2, hunr2, hl2, hc2, hother2⟩ :=
    postUpload_spec dirname c2 p2 e2 fs1 hwf1 hdn hn2 hs2
  rw [ho2]
  simp only
  have hread2 : uploadDirectory dirname ∉ fs2.unreadable := by rw [hunr2, hunr1]; exact hread
  obtain ⟨l, hl, hinc⟩ := getFiles_includes dirname fs2 hwf2 hread2
  refine ⟨hdiff, rfl, rfl, l, hl, ?_, ?_⟩
  · have hkeep : fs2.lookup (uploadDirectory dirname ++ [filename c1.nameTime p1.originalname])
        = some f1 := by
      rw [hother2 _ (concat_ne_of_ne _ _ _ hdiff)]; exact hl1
    obtain ⟨r, hr, hrn, hrs⟩ := hinc _ f1 hkeep
    exact ⟨r, hr, hrn, by rw [hrs, hc1]⟩
  · obtain ⟨r, hr, hrn, hrs⟩ := hinc _ f2 hl2
    exact ⟨r, hr, hrn, by rw [hrs, hc2]⟩

/-- C8, amended: an instance, `a.txt` and `b.txt` uploaded in the same
millisecond into the sample directory. -/
theorem C8_distinct_stored_names_witness :
    filename sampleClock.nameTime partA.originalname
      ≠ filename sampleClock.nameTime partB.originalname
    ∧ (postUpload sampleDirname sampleClock (some partA) none sampleFS).response.map
        Response.status = some 200
    ∧ (postUpload sampleDirname sampleClock (some partB) (some "true")
        (postUpload sampleDirname sampleClock (some partA) none sampleFS).fs).response.map
        Response.status = some 200
    ∧ ∃ l, (getFiles sampleDirname (postUpload sampleDirname sampleClock (some partB) (some "true")
              (postUpload sampleDirname sampleClock (some partA) none sampleFS).fs).fs).response
            = some ⟨200, Body.fileList l⟩
        ∧ (∃ r ∈ l, r.name = filename sampleClock.nameTime partA.originalname
            ∧ r.size = partA.bytes.length)
        ∧ (∃ r ∈ l, r.name = filename sampleClock.nameTime partB.originalname
            ∧ r.size = partB.bytes.length) :=
  C8_distinct_stored_names sampleDirname sampleClock sampleClock partA partB none (some "true")
    sampleFS (by decide) (by decide) (by decide) (by decide) (by decide) (by decide) (by decide)
    (Or.inr (by decide))

/-! ## C9 -/

/-- C9, counterexample. An upload into the empty directory is answered with the id
1700000000002, the clock reading of the handler, while the following List()
reports the same stored file under the id 1. After a second upload List()
reports the ids 1 and 2, and once the first file is deleted the second file is
reported under the id 1 instead of 2. -/
theorem C9_upload_id_is_not_listing_id :
    (postUpload sampleDirname sampleClock (some partA) none emptyFS).response
      = some ⟨200, Body.uploaded "File uploaded successfully"
          { id := 1700000000002, name := "1700000000000-a.txt", originalName := "a.txt",
            size := 1, type := "text/plain", timeStamp := 1700000000002,
            uploadDate := 1700000000002, url := "/uploads/1700000000000-a.txt",
            isEncrypted := false }⟩
    ∧ (getFiles sampleDirname
        (postUpload sampleDirname sampleClock (some partA) none emptyFS).fs).response
      = some ⟨200, Body.fileList
          [{ id := 1, name := "1700000000000-a.txt", size := 1, uploadDate := 1700000000001,
             type := "application/octet-stream", url := "/uploads/1700000000000-a.txt" }]⟩
    ∧ (getFiles sampleDirname
        (postUpload sampleDirname laterClock (some partB) none
          (postUpload sampleDirname sampleClock (some partA) none emptyFS).fs).fs).response
      = some ⟨200, Body.fileList
          [{ id := 1, name := "1700000000000-a.txt", size := 1, uploadDate := 1700000000001,
             type := "application/octet-stream", url := "/uploads/1700000000000-a.txt" },
           { id := 2, name := "1700000000500-b.txt", size := 3, uploadDate := 1700000000501,
             type := "application/octet-stream", url := "/uploads/1700000000500-b.txt" }]⟩
    ∧ (getFiles sampleDirname
        (deleteFile sampleDirname "1700000000000-a.txt"
          (postUpload sampleDirname laterClock (some partB) none
            (postUpload sampleDirname sampleClock (some partA) none emptyFS).fs).fs).fs).response
      = some ⟨200, Body.fileList
          [{ id := 1, name := "1700000000500-b.txt", size := 3, uploadDate := 1700000000501,
             type := "application/octet-stream", url := "/uploads/1700000000500-b.txt" }]⟩ := by
  decide

/-- C9, amended. Upload and List() number a file in two different ways. The id in
the response of a successful Upload is the clock reading the handler takes when
it builds the record, and the stored file is enumerated in the directory
afterwards. The id a List() reports for a stored file is its position in the
directory enumeration of that moment, counted from 1, whatever id the Upload
answered: so it changes when an entry enumerated before the file is deleted. -/
theorem C9_upload_id_and_listing_id (dirname : Path) (clock : UploadClock) (file : FilePart)
    (isEncrypted : Option String) (fs : FS) (hwf : fs.WF) (hdn : validPath dirname)
    (hread : uploadDirectory dirname ∉ fs.unreadable)
    (hname : '/' ∉ file.originalname.data) (hsize : file.bytes.length ≤ fileSize) :
    ∃ r, (postUpload dirname clock (some file) isEncrypted fs).response
          = some ⟨200, Body.uploaded "File uploaded successfully" r⟩
      ∧ r.id = clock.idTime
      ∧ r.name = filename clock.nameTime file.originalname
      ∧ (∃ (ns : List String) (i : Nat), readdir (postUpload dirname clock (some file) isEncrypted fs).fs
                    (uploadDirectory dirname) = some ns ∧ ns[i]? = some r.name)
      ∧ ∀ (fs' : FS) (ns : List String) (i : Nat), fs'.WF →
          readdir fs' (uploadDirectory dirname) = some ns → ns[i]? = some r.name →
          ∃ l entry, (getFiles dirname fs').response = some ⟨200, Body.fileList l⟩
            ∧ l[i]? = some entry ∧ entry.name = r.name ∧ entry.id = i + 1 := by
  obtain ⟨fs1, f1, ho1, hwf1, hunr1, hl1, _, _⟩ :=
    postUpload_spec dirname clock file isEncrypted fs hwf hdn hname hsize
  rw [ho1]
  refine ⟨_, rfl, rfl, rfl, ?_, ?_⟩
  · have hread1 : uploadDirectory dirname ∉ fs1.unreadable := by rw [hunr1]; exact hread
    have hrd : readdir fs1 (uploadDirectory dirname)
        = some (fs1.files.filterMap (fun e => childName (uploadDirectory dirname) e.1)) := by
      simp [readdir, hread1]
    have hmem := (mem_readdir fs1 _ _ hrd (filename clock.nameTime file.originalname)).2
      ⟨f1, lookup_some_mem fs1 _ f1 hl1⟩
    obtain ⟨i, hi⟩ := List.mem_iff_getElem?.1 hmem
    exact ⟨_, i, hrd, hi⟩
  · intro fs' ns i hwf' hrd hi
    obtain ⟨l, hl, _, hpt⟩ :=
      fileRecords_spec fs' (uploadDirectory dirname) ns (readdir_lookup fs' hwf' _ _ hrd) 0
    obtain ⟨f, _, hli⟩ := hpt i _ hi
    refine ⟨l, _, ?_, hli, rfl, by simp⟩
    simp only [getFiles, getFilesCallback, hrd, hl]

/-- C9, amended: an instance, the part `a.txt` uploaded into the sample directory. -/
theorem C9_upload_id_and_listing_id_witness :
    ∃ r, (postUpload sampleDirname sampleClock (some partA) none sampleFS).response
          = some ⟨200, Body.uploaded "File uploaded successfully" r⟩
      ∧ r.id = sampleClock.idTime
      ∧ r.name = filename sampleClock.nameTime partA.originalname
      ∧ (∃ (ns : List String) (i : Nat), readdir (postUpload sampleDirname sampleClock (some partA) none sampleFS).fs
                    (uploadDirectory sampleDirname) = some ns ∧ ns[i]? = some r.name)
      ∧ ∀ (fs' : FS) (ns : List String) (i : Nat), fs'.WF →
          readdir fs' (uploadDirectory sampleDirname) = some ns → ns[i]? = some r.name →
          ∃ l entry, (getFiles sampleDirname fs').response = some ⟨200, Body.fileList l⟩
            ∧ l[i]? = some entry ∧ entry.name = r.name ∧ entry.id = i + 1 :=
  C9_upload_id_and_listing_id sampleDirname sampleClock partA none sampleFS
    (by decide) (by decide) (by decide) (by decide) (by decide)

/-! ## Upload followed by List() or Download: lemmas -/

theorem postUpload_success (dirname : Path) (clock : UploadClock) (file : Option FilePart)
    (isEncrypted : Option String) (fs : FS) (msg : String) (r : UploadRecord)
    (hok : (postUpload dirname clock file isEncrypted fs).response
      = some ⟨200, Body.uploaded msg r⟩) :
    ∃ part, file = some part ∧ part.bytes.length ≤ fileSize := by
  cases file with
  | none => simp [postUpload] at hok
  | some part =>
    refine ⟨part, rfl, ?_⟩
    by_contra hsz
    have hgt : part.bytes.length > fileSize := by omega
    simp [postUpload, diskStorage, hgt] at hok

theorem getFiles_records (dirname : Path) (fs : FS) (hwf : fs.WF)
    (hread : uploadDirectory dirname ∉ fs.unreadable) :
    ∃ l, (getFiles dirname fs).response = some ⟨200, Body.fileList l⟩
      ∧ (∀ (n : String) (f : File), fs.lookup (uploadDirectory dirname ++ [n]) = some f →
          ∃ e ∈ l, e.name = n)
      ∧ ∀ e ∈ l, ∃ f, fs.lookup (uploadDirectory dirname ++ [e.name]) = some f
          ∧ e.size = f.content.length ∧ e.type = "application/octet-stream"
          ∧ e.url = "/uploads/" ++ e.name := by
  have hrd : readdir fs (uploadDirectory dirname)
      = some (fs.files.filterMap (fun e => childName (uploadDirectory dirname) e.1)) := by
    simp [readdir, hread]
  obtain ⟨l, hl, hlen, hpt⟩ :=
    fileRecords_spec fs (uploadDirectory dirname) _ (readdir_lookup fs hwf _ _ hrd) 0
  refine ⟨l, ?_, ?_, ?_⟩
  · simp only [getFiles, getFilesCallback, hrd, hl]
  · intro n f hf
    have hmem := (mem_readdir fs _ _ hrd n).2 ⟨f, lookup_some_mem fs _ f hf⟩
    obtain ⟨i, hi⟩ := List.mem_iff_getElem?.1 hmem
    obtain ⟨f', _, hli⟩ := hpt i n hi
    exact ⟨_, List.mem_iff_getElem?.2 ⟨i, hli⟩, rfl⟩
  · intro e he
    obtain ⟨i, hi⟩ := List.mem_iff_getElem?.1 he
    have hilt : i < l.length := by
      by_contra hge
      rw [List.getElem?_eq_none (by omega)] at hi
      exact absurd hi (by simp)
    rw [hlen] at hilt
    obtain ⟨f, hf, hli⟩ := hpt i _ (List.getElem?_eq_getElem hilt)
    rw [hi] at hli
    have he' := Option.some.inj hli
    rw [he']
    exact ⟨f, hf, rfl, rfl, rfl⟩

theorem getDownload_of_file (dirname : Path) (name : String) (fs : FS) (f : File)
    (hv : validSegment name) (hf : fs.lookup (uploadDirectory dirname ++ [name]) = some f) :
    (getDownload dirname name fs).response = some ⟨200, Body.attachment name f.content⟩ := by
  simp only [getDownload, pathJoin_of_valid _ _ hv, hf]

theorem postUpload_fs_flag (dirname : Path) (clock : UploadClock) (file : Option FilePart)
    (e1 e2 : Option String) (fs : FS) :
    (postUpload dirname clock file e1 fs).fs = (postUpload dirname clock file e2 fs).fs := by
  cases file with
  | none => rfl
  | some part =>
    simp only [postUpload]
    cases diskStorage dirname clock part fs with
    | none => rfl
    | some res => rfl

/-! ## C11 -/

/-- C11. In a well-formed file system whose Storage Directory can be enumerated,
after every Upload answered with status 200 and a record `r` (the name of the
part holding no separator), a List() on the file system the Upload leaves
answers 200 with a list that has a record named `r.name`, the stored name the
Upload returned. -/
theorem C11_list_after_upload (dirname : Path) (clock : UploadClock) (file : Option FilePart)
    (isEncrypted : Option String) (fs : FS) (msg : String) (r : UploadRecord) (hwf : fs.WF)
    (hdn : validPath dirname) (hread : uploadDirectory dirname ∉ fs.unreadable)
    (hname : ∀ part, file = some part → '/' ∉ part.originalname.data)
    (hok : (postUpload dirname clock file isEncrypted fs).response
      = some ⟨200, Body.uploaded msg r⟩) :
    ∃ l, (getFiles dirname (postUpload dirname clock file isEncrypted fs).fs).response
          = some ⟨200, Body.fileList l⟩
      ∧ ∃ e ∈ l, e.name = r.name := by
  obtain ⟨part, hpart, hsize⟩ := postUpload_success dirname clock file isEncrypted fs msg r hok
  subst hpart
  obtain ⟨fs1, f1, ho1, hwf1, hunr1, hl1, _, _⟩ :=
    postUpload_spec dirname clock part isEncrypted fs hwf hdn (hname part rfl) hsize
  rw [ho1] at hok ⊢
  have hr : r.name = filename clock.nameTime part.originalname := by
    simp only [Option.some.injEq, Response.mk.injEq, Body.uploaded.injEq, true_and] at hok
    rw [← hok.2]
  have hread1 : uploadDirectory dirname ∉ fs1.unreadable := by rw [hunr1]; exact hread
  obtain ⟨l, hl, hinc⟩ := getFiles_includes dirname fs1 hwf1 hread1
  obtain ⟨e, he, hen, _⟩ := hinc _ f1 hl1
  exact ⟨l, hl, e, he, by rw [hen, hr]⟩

/-- C11: an instance, the part `a.txt` uploaded into the sample directory. -/
theorem C11_list_after_upload_witness :
    ∃ l, (getFiles sampleDirname
            (postUpload sampleDirname sampleClock (some partA) none sampleFS).fs).response
          = some ⟨200, Body.fileList l⟩
      ∧ ∃ e ∈ l, e.name = "1700000000000-a.txt" :=
  C11_list_after_upload sampleDirname sampleClock (some partA) none sampleFS
    "File uploaded successfully"
    { id := 1700000000002, name := "1700000000000-a.txt", originalName := "a.txt",
      size := 1, type := "text/plain", timeStamp := 1700000000002,
      uploadDate := 1700000000002, url := "/uploads/1700000000000-a.txt",
      isEncrypted := false }
    (by decide) (by decide) (by decide) (by decide) (by decide)

/-! ## C12 -/

/-- C12. In a well-formed file system, for every byte sequence within the size
limit, uploaded under a name without separator, and every value of the form
field `isEncrypted`: the Upload answers 200 with a record `r`, the file stored
under `r.name` holds exactly the bytes uploaded, a Download of `r.name` answers
200 with exactly those bytes, and the file system the Upload leaves is the same
for every other value of `isEncrypted`. -/
theorem C12_round_trip (dirname : Path) (clock : UploadClock) (file : FilePart)
    (isEncrypted : Option String) (fs : FS) (hwf : fs.WF) (hdn : validPath dirname)
    (hname : '/' ∉ file.originalname.data) (hsize : file.bytes.length ≤ fileSize) :
    ∃ r f, (postUpload dirname clock (some file) isEncrypted fs).response
          = some ⟨200, Body.uploaded "File uploaded successfully" r⟩
      ∧ r.isEncrypted = decide (isEncrypted = some "true")
      ∧ (postUpload dirname clock (some file) isEncrypted fs).fs.lookup
          (uploadDirectory dirname ++ [r.name]) = some f
      ∧ f.content = file.bytes
      ∧ (getDownload dirname r.name
          (postUpload dirname clock (some file) isEncrypted fs).fs).response
          = some ⟨200, Body.attachment r.name file.bytes⟩
      ∧ ∀ other : Option String,
          (postUpload dirname clock (some file) other fs).fs
            = (postUpload dirname clock (some file) isEncrypted fs).fs := by
  obtain ⟨fs1, f1, ho1, _, _, hl1, hc1, _⟩ :=
    postUpload_spec dirname clock file isEncrypted fs hwf hdn hname hsize
  have hv := filename_valid clock.nameTime file.originalname hname
  refine ⟨_, f1, by rw [ho1], rfl, by rw [ho1]; exact hl1, hc1, ?_, ?_⟩
  · rw [ho1]
    simp only
    rw [getDownload_of_file dirname _ fs1 f1 hv hl1, hc1]
  · intro other
    exact postUpload_fs_flag dirname clock (some file) other isEncrypted fs

/-- C12: an instance, the part `b.txt` uploaded with `isEncrypted` set to `true`. -/
theorem C12_round_trip_witness :
    ∃ r f, (postUpload sampleDirname sampleClock (some partB) (some "true") sampleFS).response
          = some ⟨200, Body.uploaded "File uploaded successfully" r⟩
      ∧ r.isEncrypted = decide ((some "true" : Option String) = some "true")
      ∧ (postUpload sampleDirname sampleClock (some partB) (some "true") sampleFS).fs.lookup
          (uploadDirectory sampleDirname ++ [r.name]) = some f
      ∧ f.content = partB.bytes
      ∧ (getDownload sampleDirname r.name
          (postUpload sampleDirname sampleClock (some partB) (some "true") sampleFS).fs).response
          = some ⟨200, Body.attachment r.name partB.bytes⟩
      ∧ ∀ other : Option String,
          (postUpload sampleDirname sampleClock (some partB) other sampleFS).fs
            = (postUpload sampleDirname sampleClock (some partB) (some "true") sampleFS).fs :=
  C12_round_trip sampleDirname sampleClock partB (some "true") sampleFS
    (by decide) (by decide) (by decide) (by decide)

/-! ## C18 -/

/-- C18. In a well-formed file system whose Storage Directory can be enumerated,
every Upload of a part within the size limit, under a name without separator,
answers 200 with a record `r` whose size is the byte length of the file written
under `r.name`, which holds the bytes of the part; a List() on the file system
the Upload leaves has a record named `r.name`, and every record of that name
reports the size `r.size`. -/
theorem C18_upload_size (dirname : Path) (clock : UploadClock) (file : FilePart)
    (isEncrypted : Option String) (fs : FS) (hwf : fs.WF) (hdn : validPath dirname)
    (hread : uploadDirectory dirname ∉ fs.unreadable)
    (hname : '/' ∉ file.originalname.data) (hsize : file.bytes.length ≤ fileSize) :
    ∃ r f l, (postUpload dirname clock (some file) isEncrypted fs).response
          = some ⟨200, Body.uploaded "File uploaded successfully" r⟩
      ∧ (postUpload dirname clock (some file) isEncrypted fs).fs.lookup
          (uploadDirectory dirname ++ [r.name]) = some f
      ∧ f.content = file.bytes
      ∧ r.size = f.content.length
      ∧ (getFiles dirname (postUpload dirname clock (some file) isEncrypted fs).fs).response
          = some ⟨200, Body.fileList l⟩
      ∧ (∃ e ∈ l, e.name = r.name)
      ∧ ∀ e ∈ l, e.name = r.name → e.size = r.size := by
  obtain ⟨fs1, f1, ho1, hwf1, hunr1, hl1, hc1, _⟩ :=
    postUpload_spec dirname clock file isEncrypted fs hwf hdn hname hsize
  have hread1 : uploadDirectory dirname ∉ fs1.unreadable := by rw [hunr1]; exact hread
  obtain ⟨l, hl, hinc, hrec⟩ := getFiles_records dirname fs1 hwf1 hread1
  rw [ho1]
  refine ⟨_, f1, l, rfl, hl1, hc1, by rw [hc1], hl, hinc _ f1 hl1, ?_⟩
  intro e he hen
  obtain ⟨f, hf, hes, _, _⟩ := hrec e he
  simp only at hen
  rw [hen, hl1] at hf
  rw [hes, ← Option.some.inj hf, hc1]

/-- C18: an instance, the three-byte part `b.txt` uploaded into the sample
directory. -/
theorem C18_upload_size_witness :
    ∃ r f l, (postUpload sampleDirname sampleClock (some partB) none sampleFS).response
          = some ⟨200, Body.uploaded "File uploaded successfully" r⟩
      ∧ (postUpload sampleDirname sampleClock (some partB) none sampleFS).fs.lookup
          (uploadDirectory sampleDirname ++ [r.name]) = some f
      ∧ f.content = partB.bytes
      ∧ r.size = f.content.length
      ∧ (getFiles sampleDirname
          (postUpload sampleDirname sampleClock (some partB) none sampleFS).fs).response
          = some ⟨200, Body.fileList l⟩
      ∧ (∃ e ∈ l, e.name = r.name)
      ∧ ∀ e ∈ l, e.name = r.name → e.size = r.size :=
  C18_upload_size sampleDirname sampleClock partB none sampleFS
    (by decide) (by decide) (by decide) (by decide) (by decide)

/-! ## Connected clients: lemmas -/

theorem received_one (event : Event) (socket : SocketId) :
    ∀ sockets : List SocketId, sockets.Nodup →
      (((sockets.map (fun x => (x, event))).filter
          (fun m => decide (m.1 = socket))).map Prod.snd)
        = if socket ∈ sockets then [event] else [] := by
  intro sockets
  induction sockets with
  | nil => intro _; rfl
  | cons a rest ih =>
    intro hnd
    have ha : a ∉ rest := (List.nodup_cons.1 hnd).1
    have ih' := ih (List.nodup_cons.1 hnd).2
    rw [List.map_cons]
    by_cases h : a = socket
    · subst h
      rw [List.filter_cons_of_pos (by simp), List.map_cons, ih', if_neg ha,
        if_pos (List.mem_cons_self _ _)]
    · rw [List.filter_cons_of_neg (by simpa using h), ih']
      have hiff : socket ∈ a :: rest ↔ socket ∈ rest := by
        constructor
        · intro hm
          rcases List.mem_cons.1 hm with e | e
          · exact absurd e.symm h
          · exact e
        · exact List.mem_cons_of_mem _
      by_cases hm : socket ∈ rest
      · rw [if_pos hm, if_pos (hiff.2 hm)]
      · rw [if_neg hm, if_neg (fun x => hm (hiff.1 x))]

theorem received_singleton (sockets : List SocketId) (hnd : sockets.Nodup) (socket : SocketId)
    (hs : socket ∈ sockets) (event : Event) : received sockets [event] socket = [event] := by
  unfold received broadcast broadcast ioEmit
  rw [List.append_nil, received_one event socket sockets hnd, if_pos hs]

/-! ## C13 -/

/-- C13, counterexample. The part `a.txt`, declared as `text/plain`, is uploaded
into the empty directory while two sockets are connected. The socket `socket-2`
is sent one `fileUploaded` event whose record has the type `text/plain`; the
following List() reports the same file under the type
`application/octet-stream`. -/
theorem C13_event_type_differs :
    received sampleSockets
        (postUpload sampleDirname sampleClock (some partA) none emptyFS).events "socket-2"
      = [Event.fileUploaded
          { id := 1700000000002, name := "1700000000000-a.txt", originalName := "a.txt",
            size := 1, type := "text/plain", timeStamp := 1700000000002,
            uploadDate := 1700000000002, url := "/uploads/1700000000000-a.txt",
            isEncrypted := false }]
    ∧ (getFiles sampleDirname
        (postUpload sampleDirname sampleClock (some partA) none emptyFS).fs).response
      = some ⟨200, Body.fileList
          [{ id := 1, name := "1700000000000-a.txt", size := 1, uploadDate := 1700000000001,
             type := "application/octet-stream", url := "/uploads/1700000000000-a.txt" }]⟩ := by
  decide

/-- C13, amended. When a part within the size limit, under a name without
separator, is uploaded, every connected socket, whichever client it belongs to,
is sent exactly one event, a `fileUploaded` carrying the record `r` of the
response. A List() on the file system the Upload leaves has a record named
`r.name`, and every record of that name has the size and the url of `r`. The
types need not agree: `r.type` is the type the client declared for the part,
while List() reports `application/octet-stream` for every file. -/
theorem C13_upload_fan_out (dirname : Path) (clock : UploadClock) (file : FilePart)
    (isEncrypted : Option String) (fs : FS) (sockets : List SocketId) (socket : SocketId)
    (hwf : fs.WF) (hdn : validPath dirname) (hread : uploadDirectory dirname ∉ fs.unreadable)
    (hname : '/' ∉ file.originalname.data) (hsize : file.bytes.length ≤ fileSize)
    (hnd : sockets.Nodup) (hs : socket ∈ sockets) :
    ∃ r l, (postUpload dirname clock (some file) isEncrypted fs).response
          = some ⟨200, Body.uploaded "File uploaded successfully" r⟩
      ∧ received sockets (postUpload dirname clock (some file) isEncrypted fs).events socket
          = [Event.fileUploaded r]
      ∧ r.type = file.mimetype
      ∧ (getFiles dirname (postUpload dirname clock (some file) isEncrypted fs).fs).response
          = some ⟨200, Body.fileList l⟩
      ∧ (∃ e ∈ l, e.name = r.name)
      ∧ ∀ e ∈ l, e.name = r.name →
          e.size = r.size ∧ e.url = r.url ∧ e.type = "application/octet-stream" := by
  obtain ⟨fs1, f1, ho1, hwf1, hunr1, hl1, hc1, _⟩ :=
    postUpload_spec dirname clock file isEncrypted fs hwf hdn hname hsize
  have hread1 : uploadDirectory dirname ∉ fs1.unreadable := by rw [hunr1]; exact hread
  obtain ⟨l, hl, hinc, hrec⟩ := getFiles_records dirname fs1 hwf1 hread1
  rw [ho1]
  refine ⟨_, l, rfl, received_singleton sockets hnd socket hs _, rfl, hl, hinc _ f1 hl1, ?_⟩
  intro e he hen
  obtain ⟨f, hf, hes, het, heu⟩ := hrec e he
  simp only at hen
  rw [hen, hl1] at hf
  refine ⟨?_, ?_, het⟩
  · rw [hes, ← Option.some.inj hf, hc1]
  · rw [heu, hen]

/-- C13, amended: an instance, the part `a.txt` uploaded into the sample directory
and the socket `socket-2`. -/
theorem C13_upload_fan_out_witness :
    ∃ r l, (postUpload sampleDirname sampleClock (some partA) none sampleFS).response
          = some ⟨200, Body.uploaded "File uploaded successfully" r⟩
      ∧ received sampleSockets
          (postUpload sampleDirname sampleClock (some partA) none sampleFS).events "socket-2"
          = [Event.fileUploaded r]
      ∧ r.type = partA.mimetype
      ∧ (getFiles sampleDirname
          (postUpload sampleDirname sampleClock (some partA) none sampleFS).fs).response
          = some ⟨200, Body.fileList l⟩
      ∧ (∃ e ∈ l, e.name = r.name)
      ∧ ∀ e ∈ l, e.name = r.name →
          e.size = r.size ∧ e.url = r.url ∧ e.type = "application/octet-stream" :=
  C13_upload_fan_out sampleDirname sampleClock partA none sampleFS sampleSockets "socket-2"
    (by decide) (by decide) (by decide) (by decide) (by decide) (by decide) (by decide)

/-! ## C14 -/

/-- C14, the code at a failing input. DeleteAll on the sample directory empties it
and publishes `allFilesDeleted`. A client whose list holds the file of that
directory has no listener for this event: after the events of the DeleteAll its
list still holds the file, while a List() on the server answers the empty
list. -/
theorem C14_allFilesDeleted_is_ignored :
    (deleteAll sampleDirname sampleFS).outcome.events = [Event.allFilesDeleted]
    ∧ (getFiles sampleDirname (deleteAll sampleDirname sampleFS).outcome.fs).response
        = some ⟨200, Body.fileList []⟩
    ∧ onServerEvent sampleClientFiles Event.allFilesDeleted = sampleClientFiles
    ∧ (deleteAll sampleDirname sampleFS).outcome.events.foldl onServerEvent sampleClientFiles
        = sampleClientFiles
    ∧ sampleClientFiles ≠ [] := by
  decide

/-! ## C15 -/

/-- C15. One sweep over the entries `files` of an enumeration, which may list
entries that no longer exist (their `stat` fails) and files that cannot be
unlinked (their `unlink` fails): every entry of `files` that exists, is older
than the lifetime at the clock reading of its `stat` callback and can be
unlinked is absent after the tick, wherever it stands among the others. The
sweep has no failing outcome: when the enumeration itself fails it leaves the
file system as it is. -/
theorem C15_sweep_continues (dirname : Path) (clock : String → Nat) (fs : FS)
    (files : List String) (name : String) (f : File)
    (hvalid : ∀ n ∈ files, validSegment n) (hmem : name ∈ files)
    (hfile : fs.lookup (uploadDirectory dirname ++ [name]) = some f)
    (hexp : (clock name : Int) - (f.mtimeMs : Int) > 3600000) (hl : f.locked = false) :
    (sweepCallback dirname clock (some files) fs).fs.lookup
        (uploadDirectory dirname ++ [name]) = none
    ∧ sweepCallback dirname clock none fs = { fs := fs, events := [] } := by
  have hL : (FILE_LIFETIME_MS : Int) = 3600000 := by decide
  refine ⟨?_, rfl⟩
  simp only [sweepCallback]
  exact sweep_foldl_expired dirname clock files hvalid name f (by rw [hL]; exact hexp) hl _
    hmem hfile

/-- C15: an instance. The enumeration lists `0500-gone.txt`, which no longer
exists, then `1000-a.txt`, then `2000-b.bin`, which is expired and cannot be
unlinked, then `3000-c.txt`: the last one is removed all the same, and so is
`1000-a.txt`, while `2000-b.bin` stays. -/
theorem C15_sweep_continues_witness :
    ((sweepCallback sampleDirname (fun _ => 10000000) (some staleEnumeration)
        sampleLockedFS).fs.lookup (uploadDirectory sampleDirname ++ ["3000-c.txt"]) = none
      ∧ sweepCallback sampleDirname (fun _ => 10000000) none sampleLockedFS
        = { fs := sampleLockedFS, events := [] })
    ∧ stat sampleLockedFS (pathJoin (uploadDirectory sampleDirname) "0500-gone.txt") = none
    ∧ unlink sampleLockedFS (pathJoin (uploadDirectory sampleDirname) "2000-b.bin") = none
    ∧ readdir (sweepCallback sampleDirname (fun _ => 10000000) (some staleEnumeration)
        sampleLockedFS).fs (uploadDirectory sampleDirname) = some ["2000-b.bin"] :=
  ⟨C15_sweep_continues sampleDirname (fun _ => 10000000) sampleLockedFS staleEnumeration
    "3000-c.txt" sampleFile (by decide) (by decide) (by decide) (by decide) (by decide),
   by decide, by decide, by decide⟩

/-! ## Upload of several files: lemmas -/

theorem filePaths_spec (clock : Nat → UploadClock) (isEncrypted : Option String)
    (files : List MulterFile) :
    ∀ k : Nat, (filePaths clock isEncrypted k files).length = files.length ∧
      ∀ (i : Nat) (f : MulterFile), files[i]? = some f →
        (filePaths clock isEncrypted k files)[i]? =
          some { id := (clock (k + i)).idTime + (k + i)
                 name := f.filename
                 originalName := f.originalname
                 size := f.size
                 type := f.mimetype
                 timeStamp := (clock (k + i)).stampTime
                 uploadDate := (clock (k + i)).dateTime
                 url := "/uploads/" ++ f.filename
                 isEncrypted := decide (isEncrypted = some "true") } := by
  induction files with
  | nil => intro k; exact ⟨rfl, fun i f hi => absurd hi (by simp)⟩
  | cons a rest ih =>
    intro k
    obtain ⟨hlen, hpt⟩ := ih (k + 1)
    constructor
    · simp [filePaths, hlen]
    · intro i f hi
      cases i with
      | zero =>
        have : a = f := by simpa using hi
        subst this
        simp [filePaths]
      | succ j =>
        have hj : rest[j]? = some f := by simpa using hi
        have := hpt j f hj
        have e : k + 1 + j = k + (j + 1) := by omega
        rw [e] at this
        simp only [filePaths, List.getElem?_cons_succ]
        exact this

/-! ## C16 -/

/-- C16. An Upload request without a file part, and an UploadMany request whose
file list is absent or empty, is answered with status 400 and an error message
(so with no record), publishes no event and leaves the file system as it is. -/
theorem C16_no_payload (dirname : Path) (clock : UploadClock) (clocks : Nat → UploadClock)
    (isEncrypted : Option String) (fs : FS) :
    postUpload dirname clock none isEncrypted fs
      = { fs := fs, events := [], response := some ⟨400, Body.error "No file uploaded"⟩ }
    ∧ postUploadMultiple dirname clocks none isEncrypted fs
      = { fs := fs, events := [], response := some ⟨400, Body.error "No files uploaded"⟩ }
    ∧ postUploadMultiple dirname clocks (some []) isEncrypted fs
      = { fs := fs, events := [], response := some ⟨400, Body.error "No files uploaded"⟩ } :=
  ⟨rfl, rfl, rfl⟩

/-! ## C17 -/

/-- C17. When the storage has stored the parts of an UploadMany request as the
non-empty list `reqFiles`, the handler publishes exactly one event,
`filesUploaded`, whose payload is a list of as many records as `reqFiles` has
files, in that order: the record at position `i` has the stored name and the size
of the file at position `i`, and as id the clock reading plus `i`. The response
has status 200 and returns the same list as `filePaths`. -/
theorem C17_batch_event (dirname : Path) (clock : Nat → UploadClock) (parts : List FilePart)
    (isEncrypted : Option String) (fs fs' : FS) (reqFiles : List MulterFile)
    (hstore : storeFiles dirname clock 0 parts fs = (fs', some reqFiles))
    (hne : reqFiles ≠ []) :
    ∃ records,
      (postUploadMultiple dirname clock (some parts) isEncrypted fs).events
        = [Event.filesUploaded records]
      ∧ (postUploadMultiple dirname clock (some parts) isEncrypted fs).response
        = some ⟨200, Body.uploadedMany "Files uploaded successfully" records⟩
      ∧ (postUploadMultiple dirname clock (some parts) isEncrypted fs).fs = fs'
      ∧ records.length = reqFiles.length
      ∧ ∀ (i : Nat) (f : MulterFile), reqFiles[i]? = some f →
          records[i]? =
            some { id := (clock i).idTime + i
                   name := f.filename
                   originalName := f.originalname
                   size := f.size
                   type := f.mimetype
                   timeStamp := (clock i).stampTime
                   uploadDate := (clock i).dateTime
                   url := "/uploads/" ++ f.filename
                   isEncrypted := decide (isEncrypted = some "true") } := by
  obtain ⟨hlen, hpt⟩ := filePaths_spec clock isEncrypted reqFiles 0
  cases reqFiles with
  | nil => exact absurd rfl hne
  | cons a rest =>
    refine ⟨filePaths clock isEncrypted 0 (a :: rest), ?_, ?_, ?_, hlen, ?_⟩
    · simp only [postUploadMultiple, hstore, uploadMultipleHandler]
    · simp only [postUploadMultiple, hstore, uploadMultipleHandler]
    · simp only [postUploadMultiple, hstore, uploadMultipleHandler]
    · intro i f hi
      have := hpt i f hi
      simpa using this

/-- C17: an instance, the parts `a.txt` and `b.txt` uploaded in one request into
the sample directory. -/
theorem C17_batch_event_witness :
    ∃ records,
      (postUploadMultiple sampleDirname batchClock (some [partA, partB]) none sampleFS).events
        = [Event.filesUploaded records]
      ∧ (postUploadMultiple sampleDirname batchClock (some [partA, partB]) none sampleFS).response
        = some ⟨200, Body.uploadedMany "Files uploaded successfully" records⟩
      ∧ (postUploadMultiple sampleDirname batchClock (some [partA, partB]) none sampleFS).fs
        = (storeFiles sampleDirname batchClock 0 [partA, partB] sampleFS).1
      ∧ records.length = sampleReqFiles.length
      ∧ ∀ (i : Nat) (f : MulterFile), sampleReqFiles[i]? = some f →
          records[i]? =
            some { id := (batchClock i).idTime + i
                   name := f.filename
                   originalName := f.originalname
                   size := f.size
                   type := f.mimetype
                   timeStamp := (batchClock i).stampTime
                   uploadDate := (batchClock i).dateTime
                   url := "/uploads/" ++ f.filename
                   isEncrypted := decide ((none : Option String) = some "true") } :=
  C17_batch_event sampleDirname batchClock [partA, partB] none sampleFS
    (storeFiles sampleDirname batchClock 0 [partA, partB] sampleFS).1 sampleReqFiles
    (by decide) (by decide)

/-! ## C19 -/

/-- C19. A ping carrying the timestamp `t` is answered on the socket it came from
with exactly one pong, whose `timestamp` is `t` and whose `serverTime` is the
reading of the server clock. For the ping of `testConnection`, sent when the
client clock reads `sendTime` and answered when it reads `receiveTime`, the
latency the client computes is `receiveTime - sendTime`, which is not negative
when the client clock has not run backwards. -/
theorem C19_ping_pong (serverNow : Nat) (socket : SocketId) (t sendTime receiveTime : Nat)
    (hclock : sendTime ≤ receiveTime) :
    onPing serverNow socket { timestamp := t }
      = [(socket, { timestamp := t, serverTime := serverNow })]
    ∧ ∀ m ∈ onPing serverNow socket (testConnectionPing sendTime),
        m.1 = socket
        ∧ (testConnectionPong receiveTime m.2).success = true
        ∧ (testConnectionPong receiveTime m.2).serverTime = serverNow
        ∧ (testConnectionPong receiveTime m.2).latency = (receiveTime : Int) - (sendTime : Int)
        ∧ 0 ≤ (testConnectionPong receiveTime m.2).latency := by
  refine ⟨rfl, ?_⟩
  intro m hm
  have hm' : m = (socket, { timestamp := sendTime, serverTime := serverNow }) := by
    simpa [onPing, testConnectionPing] using hm
  subst hm'
  refine ⟨rfl, rfl, rfl, rfl, ?_⟩
  show 0 ≤ (receiveTime : Int) - (sendTime : Int)
  omega

/-- C19: an instance, a ping sent at client time 1000 and answered at client time
1012. -/
theorem C19_ping_pong_witness :
    onPing 1700000000000 "socket-1" { timestamp := 1000 }
      = [("socket-1", { timestamp := 1000, serverTime := 1700000000000 })]
    ∧ ∀ m ∈ onPing 1700000000000 "socket-1" (testConnectionPing 1000),
        m.1 = "socket-1"
        ∧ (testConnectionPong 1012 m.2).success = true
        ∧ (testConnectionPong 1012 m.2).serverTime = 1700000000000
        ∧ (testConnectionPong 1012 m.2).latency = ((1012 : Nat) : Int) - ((1000 : Nat) : Int)
        ∧ 0 ≤ (testConnectionPong 1012 m.2).latency :=
  C19_ping_pong 1700000000000 "socket-1" 1000 1000 1012 (by decide)

/-! ## C20 -/

/-- C20, the code at a failing input. The directory is enumerated while it holds
four files; before the callback of the enumeration runs, a Delete removes
`0500-gone.txt`. The callback then calls `statSync` on that name, which throws:
the callback runs outside the `try` of the handler, so no response is sent,
neither the list nor the 500 error. -/
theorem C20_stale_entry_is_unhandled :
    readdir fourFileFS (uploadDirectory sampleDirname) = some staleEnumeration
    ∧ (deleteFile sampleDirname "0500-gone.txt" fourFileFS).fs = sampleLockedFS
    ∧ stat sampleLockedFS (pathJoin (uploadDirectory sampleDirname) "0500-gone.txt") = none
    ∧ (getFilesCallback sampleDirname (readdir fourFileFS (uploadDirectory sampleDirname))
        (deleteFile sampleDirname "0500-gone.txt" fourFileFS).fs).response = none := by
  decide

/-! ## The client's file list: lemmas -/

theorem onFileUploaded_found (L : List ClientFile) (r : ClientFile)
    (h : ∃ e ∈ L, e.name = r.name ∨ e.id = r.id) : onFileUploaded L r = L := by
  have hany : L.any (fun file => decide (file.name = r.name) || decide (file.id = r.id))
      = true := by
    rw [List.any_eq_true]
    obtain ⟨e, he, hor⟩ := h
    exact ⟨e, he, by simpa using hor⟩
  simp only [onFileUploaded, hany, Bool.not_true, Bool.false_eq_true, if_false]

theorem onFileUploaded_fresh (L : List ClientFile) (r : ClientFile)
    (h : ¬ ∃ e ∈ L, e.name = r.name ∨ e.id = r.id) : onFileUploaded L r = L ++ [r] := by
  have hany : L.any (fun file => decide (file.name = r.name) || decide (file.id = r.id))
      = false := by
    rw [Bool.eq_false_iff, Ne, List.any_eq_true]
    rintro ⟨e, he, hor⟩
    exact h ⟨e, he, by simpa using hor⟩
  simp only [onFileUploaded, hany, Bool.not_false, if_true]

theorem onFileUploaded_twice (L : List ClientFile) (r : ClientFile) :
    onFileUploaded (onFileUploaded L r) r = onFileUploaded L r := by
  by_cases h : ∃ e ∈ L, e.name = r.name ∨ e.id = r.id
  · rw [onFileUploaded_found L r h, onFileUploaded_found L r h]
  · rw [onFileUploaded_fresh L r h]
    exact onFileUploaded_found _ r ⟨r, by simp, Or.inl rfl⟩

theorem onFileDeleted_keeps (L : List ClientFile) (f : String)
    (h : ∀ e ∈ L, ∃ n, e.name = some n ∧ n ≠ f) :
    onFileDeleted L { filename := some f, name := none } = L := by
  unfold onFileDeleted
  rw [List.filter_eq_self]
  intro e he
  obtain ⟨n, hn, hne⟩ := h e he
  simp [hn, hne]

/-! ## C21 -/

theorem onFileUploaded_named (L : List ClientFile) (r : ClientFile)
    (hL : ∀ e ∈ L, e.name ≠ none) (hr : r.name ≠ none) :
    ∀ e ∈ onFileUploaded L r, e.name ≠ none := by
  by_cases h : ∃ e ∈ L, e.name = r.name ∨ e.id = r.id
  · rw [onFileUploaded_found L r h]; exact hL
  · rw [onFileUploaded_fresh L r h]
    intro e he
    rcases List.mem_append.1 he with h1 | h1
    · exact hL e h1
    · have : e = r := by simpa using h1
      rw [this]; exact hr

theorem onServerEvent_named (L : List ClientFile) (event : Event)
    (hL : ∀ e ∈ L, e.name ≠ none) : ∀ e ∈ onServerEvent L event, e.name ≠ none := by
  cases event with
  | fileUploaded filePath =>
    exact onFileUploaded_named L _ hL (by simp [ClientFile.ofUploadRecord])
  | filesUploaded records =>
    intro e he
    simp only [onServerEvent, onFilesUploaded] at he
    rcases List.mem_append.1 he with h1 | h1
    · exact hL e h1
    · obtain ⟨r, _, hr⟩ := List.mem_map.1 (List.mem_of_mem_filter h1)
      rw [← hr]; simp [ClientFile.ofUploadRecord]
  | fileDeleted name =>
    intro e he
    simp only [onServerEvent, onFileDeleted] at he
    exact hL e (List.mem_of_mem_filter he)
  | allFilesDeleted => exact hL

/-- Every entry of a list the client holds has a name: the records of the listing
and of the upload events all carry one. -/
theorem clientList_named (fileList : List ListRecord) (events : List Event) :
    ∀ e ∈ clientList fileList events, e.name ≠ none := by
  unfold clientList
  have hstart : ∀ e ∈ fileList.map ClientFile.ofListRecord, e.name ≠ none := by
    intro e he
    obtain ⟨r, _, hr⟩ := List.mem_map.1 he
    rw [← hr]; simp [ClientFile.ofListRecord]
  generalize fileList.map ClientFile.ofListRecord = L at hstart
  induction events generalizing L with
  | nil => exact hstart
  | cons event rest ih =>
    rw [List.foldl_cons]
    exact ih _ (onServerEvent_named L event hstart)

/-- C21. The client's `fileDeleted` handler, for every local list `L` (a list of
records, each with its name) and every event naming the file `f`, yields
exactly the entries of `L` whose name differs from `f`, in their original
order: no entry named `f` remains, every entry of another name remains, and the
result is `L` with entries left out, none moved. -/
theorem C21_fileDeleted_filters (L : List ClientFile) (f : String)
    (hnamed : ∀ e ∈ L, e.name ≠ none) :
    onServerEvent L (Event.fileDeleted f) = L.filter (fun e => decide (e.name ≠ some f))
    ∧ (∀ e ∈ onServerEvent L (Event.fileDeleted f), e.name ≠ some f)
    ∧ (∀ e ∈ L, e.name ≠ some f → e ∈ onServerEvent L (Event.fileDeleted f))
    ∧ List.Sublist (onServerEvent L (Event.fileDeleted f)) L := by
  have heq : onServerEvent L (Event.fileDeleted f)
      = L.filter (fun e => decide (e.name ≠ some f)) := by
    simp only [onServerEvent, onFileDeleted]
    apply List.filter_congr
    intro e he
    have := hnamed e he
    simp [this]
  refine ⟨heq, ?_, ?_, ?_⟩
  · intro e he
    rw [heq] at he
    simpa using (List.mem_filter.1 he).2
  · intro e he hne
    rw [heq]
    exact List.mem_filter.2 ⟨he, by simpa using hne⟩
  · rw [heq]
    exact List.filter_sublist L

/-- C21: an instance, the list of two stored files and the event naming
`1000-a.txt`: the entry of `2000-b.bin` is what remains. -/
theorem C21_fileDeleted_filters_witness :
    (onServerEvent twoClientFiles (Event.fileDeleted "1000-a.txt")
        = twoClientFiles.filter (fun e => decide (e.name ≠ some "1000-a.txt"))
      ∧ (∀ e ∈ onServerEvent twoClientFiles (Event.fileDeleted "1000-a.txt"),
          e.name ≠ some "1000-a.txt")
      ∧ (∀ e ∈ twoClientFiles, e.name ≠ some "1000-a.txt" →
          e ∈ onServerEvent twoClientFiles (Event.fileDeleted "1000-a.txt"))
      ∧ List.Sublist (onServerEvent twoClientFiles (Event.fileDeleted "1000-a.txt"))
          twoClientFiles)
    ∧ onServerEvent twoClientFiles (Event.fileDeleted "1000-a.txt")
        = [{ id := some 2, name := some "2000-b.bin", size := 2,
             type := "application/octet-stream", url := "/uploads/2000-b.bin" }] :=
  ⟨C21_fileDeleted_filters twoClientFiles "1000-a.txt" (by decide), by decide⟩

/-! ## C22 -/

/-- C22. The client's `fileUploaded` handler, for every local list `L` and record
`r`: when some entry of `L` has the same name or the same id as `r` it returns
`L` unchanged; otherwise it returns `L` with `r` appended at the end. Handling the
same record twice gives the same list as handling it once, also for the record
of a `fileUploaded` event of the server. -/
theorem C22_fileUploaded_idempotent (L : List ClientFile) (r : ClientFile) :
    ((∃ e ∈ L, e.name = r.name ∨ e.id = r.id) → onFileUploaded L r = L)
    ∧ ((¬ ∃ e ∈ L, e.name = r.name ∨ e.id = r.id) → onFileUploaded L r = L ++ [r])
    ∧ onFileUploaded (onFileUploaded L r) r = onFileUploaded L r
    ∧ ∀ filePath : UploadRecord,
        onServerEvent (onServerEvent L (Event.fileUploaded filePath))
            (Event.fileUploaded filePath)
          = onServerEvent L (Event.fileUploaded filePath) :=
  ⟨onFileUploaded_found L r, onFileUploaded_fresh L r, onFileUploaded_twice L r,
    fun filePath => onFileUploaded_twice L (ClientFile.ofUploadRecord filePath)⟩

/-! ## C23 -/

/-- C23, the code at a failing input. Two parts, both named `a.txt`, are uploaded
in one request and their names are formed in the same millisecond: the
`filesUploaded` event carries two records named `1700000000000-a.txt`. A client
with the empty list, whose names are pairwise distinct, ends with two entries of
that name, since the handler compares the new records with the names already in
the list only; the same two records handled one by one as `fileUploaded` events
leave one entry. -/
theorem C23_batch_duplicates_are_added :
    (postUploadMultiple sampleDirname batchClock (some [partA, partA2]) none emptyFS).events.foldl
        onServerEvent []
      = [{ id := some 1700000000002, name := some "1700000000000-a.txt", size := 1,
           type := "text/plain", url := "/uploads/1700000000000-a.txt" },
         { id := some 1700000000003, name := some "1700000000000-a.txt", size := 2,
           type := "text/plain", url := "/uploads/1700000000000-a.txt" }]
    ∧ ¬ (((postUploadMultiple sampleDirname batchClock (some [partA, partA2]) none
          emptyFS).events.foldl onServerEvent []).map (fun e => e.name)).Nodup
    ∧ onFileUploaded
        (onFileUploaded []
          { id := some 1700000000002, name := some "1700000000000-a.txt", size := 1,
            type := "text/plain", url := "/uploads/1700000000000-a.txt" })
        { id := some 1700000000003, name := some "1700000000000-a.txt", size := 2,
          type := "text/plain", url := "/uploads/1700000000000-a.txt" }
      = [{ id := some 1700000000002, name := some "1700000000000-a.txt", size := 1,
           type := "text/plain", url := "/uploads/1700000000000-a.txt" }] := by
  decide

/-! ## C29 -/

/-- C29. For every client list `L` in which every entry has a name and no entry
has the name of the record `r`: handling the event `fileUploaded` carrying `r`
and then the event `fileDeleted` naming `r.name` yields `L` again, the same
entries in the same order, whether or not an entry of `L` has the id of `r`. -/
theorem C29_upload_then_delete (L : List ClientFile) (r : UploadRecord)
    (h : ∀ e ∈ L, ∃ n, e.name = some n ∧ n ≠ r.name) :
    onServerEvent (onServerEvent L (Event.fileUploaded r)) (Event.fileDeleted r.name) = L := by
  simp only [onServerEvent]
  by_cases hid : ∃ e ∈ L, e.name = (ClientFile.ofUploadRecord r).name
      ∨ e.id = (ClientFile.ofUploadRecord r).id
  · rw [onFileUploaded_found L _ hid]
    exact onFileDeleted_keeps L r.name h
  · rw [onFileUploaded_fresh L _ hid]
    unfold onFileDeleted
    rw [List.filter_append]
    have hL : L.filter (fun file =>
        decide (file.name ≠ (some r.name : Option String)) && decide (file.name ≠ none)) = L := by
      rw [List.filter_eq_self]
      intro e he
      obtain ⟨n, hn, hne⟩ := h e he
      simp [hn, hne]
    rw [hL]
    simp [ClientFile.ofUploadRecord]

/-- C29: an instance. The list holds the entry of `1000-a.txt` with the id 1; the
record uploaded is named `1700000000000-b.txt` and has the id 1 as well. -/
theorem C29_upload_then_delete_witness :
    onServerEvent
        (onServerEvent sampleClientFiles
          (Event.fileUploaded
            { id := 1, name := "1700000000000-b.txt", originalName := "b.txt", size := 3,
              type := "text/plain", timeStamp := 5, uploadDate := 5,
              url := "/uploads/1700000000000-b.txt", isEncrypted := false }))
        (Event.fileDeleted "1700000000000-b.txt")
      = sampleClientFiles :=
  C29_upload_then_delete sampleClientFiles
    { id := 1, name := "1700000000000-b.txt", originalName := "b.txt", size := 3,
      type := "text/plain", timeStamp := 5, uploadDate := 5,
      url := "/uploads/1700000000000-b.txt", isEncrypted := false }
    (by decide)

/-! ## C26 -/

/-- C26. The stored-name function, the decimal timestamp followed by `-` and the
original name, is injective on pairs: for all timestamps `t1`, `t2` and all
names `n1`, `n2`, whatever characters the names hold, the stored names are
equal if and only if `t1 = t2` and `n1 = n2`. -/
theorem C26_stored_name_injective (t1 t2 : Nat) (n1 n2 : String) :
    filename t1 n1 = filename t2 n2 ↔ t1 = t2 ∧ n1 = n2 := by
  constructor
  · exact filename_injective t1 t2 n1 n2
  · rintro ⟨ht, hn⟩
    rw [ht, hn]

/-! ## C28 -/

theorem filePaths_id (clock : Nat → UploadClock) (isEncrypted : Option String)
    (files : List MulterFile) :
    ∀ (k : Nat) (r : UploadRecord), r ∈ filePaths clock isEncrypted k files →
      ∃ i, k ≤ i ∧ r.id = (clock i).idTime + i := by
  induction files with
  | nil => intro k r hr; exact absurd hr (by simp [filePaths])
  | cons a rest ih =>
    intro k r hr
    simp only [filePaths, List.mem_cons] at hr
    rcases hr with h | h
    · exact ⟨k, Nat.le_refl k, by rw [h]⟩
    · obtain ⟨i, hi, hid⟩ := ih (k + 1) r h
      exact ⟨i, by omega, hid⟩

theorem filePaths_pairwise (clock : Nat → UploadClock) (isEncrypted : Option String)
    (hclock : ∀ i j : Nat, i ≤ j → (clock i).idTime ≤ (clock j).idTime)
    (files : List MulterFile) :
    ∀ k : Nat, List.Pairwise (fun a b : UploadRecord => a.id < b.id)
      (filePaths clock isEncrypted k files) := by
  induction files with
  | nil => intro k; simp [filePaths]
  | cons a rest ih =>
    intro k
    simp only [filePaths, List.pairwise_cons]
    refine ⟨?_, ih (k + 1)⟩
    intro r hr
    obtain ⟨i, hi, hid⟩ := filePaths_id clock isEncrypted rest (k + 1) r hr
    have := hclock k i (by omega)
    simp only [hid]
    omega

/-- C28. For every batch of stored files, when the clock readings taken for the
records do not decrease along the batch, the ids of the records the handler
builds, each the clock reading plus the position, are strictly increasing along
the batch, and therefore pairwise distinct. -/
theorem C28_batch_ids_increase (clock : Nat → UploadClock) (isEncrypted : Option String)
    (files : List MulterFile)
    (hclock : ∀ i j : Nat, i ≤ j → (clock i).idTime ≤ (clock j).idTime) :
    List.Pairwise (fun a b : UploadRecord => a.id < b.id) (filePaths clock isEncrypted 0 files)
    ∧ ((filePaths clock isEncrypted 0 files).map (fun r => r.id)).Nodup := by
  have hpw := filePaths_pairwise clock isEncrypted hclock files 0
  exact ⟨hpw, List.Pairwise.map (fun r : UploadRecord => r.id)
    (fun a b hab => Nat.ne_of_lt hab) hpw⟩

/-- C28: an instance, the two stored files of the sample batch under a clock that
stands still. -/
theorem C28_batch_ids_increase_witness :
    List.Pairwise (fun a b : UploadRecord => a.id < b.id)
      (filePaths batchClock none 0 sampleReqFiles)
    ∧ ((filePaths batchClock none 0 sampleReqFiles).map (fun r => r.id)).Nodup :=
  C28_batch_ids_increase batchClock none sampleReqFiles (fun _ _ _ => Nat.le_refl _)

/-! ## C27 -/

theorem step_invariant (s : SocketService) (a : SocketAction)
    (h : s.isConnected = true → s.reconnectAttempts = 0) :
    (s.step a).isConnected = true → (s.step a).reconnectAttempts = 0 := by
  cases a with
  | connect =>
    simp only [SocketService.step]
    by_cases hs : s.socket = true
    · rw [if_pos hs]; exact h
    · rw [if_neg hs]; exact h
  | disconnect =>
    simp only [SocketService.step]
    by_cases hs : s.socket = true
    · rw [if_pos hs]; intro hc; exact absurd hc (by simp)
    · rw [if_neg hs]; exact h
  | onConnect => intro _; rfl
  | onDisconnect => intro hc; exact absurd hc (by simp [SocketService.step])
  | onConnectError => intro hc; exact absurd hc (by simp [SocketService.step])
  | onReconnect => intro _; rfl

theorem foldl_invariant (actions : List SocketAction) :
    ∀ s : SocketService, (s.isConnected = true → s.reconnectAttempts = 0) →
      (actions.foldl SocketService.step s).isConnected = true →
      (actions.foldl SocketService.step s).reconnectAttempts = 0 := by
  induction actions with
  | nil => intro s h; exact h
  | cons a rest ih =>
    intro s h
    rw [List.foldl_cons]
    exact ih (s.step a) (step_invariant s a h)

/-- C27. After every sequence of calls of `connect()` and `disconnect()` and of
the socket events `connect`, `disconnect`, `connect_error` and `reconnect` on a
fresh `SocketService`: when `isConnected` is true, `reconnectAttempts` is 0.
Hence `getNetworkQuality` never returns the result `fair` / `Unstable`. -/
theorem C27_connected_means_no_attempts (actions : List SocketAction) :
    ((SocketService.run actions).isConnected = true →
      (SocketService.run actions).reconnectAttempts = 0)
    ∧ ∀ transport : String,
        getNetworkQuality (SocketService.run actions) transport
          ≠ { quality := "fair", color := "yellow", text := "Unstable" }
        ∧ (getNetworkQuality (SocketService.run actions) transport).quality ≠ "fair"
        ∧ (getNetworkQuality (SocketService.run actions) transport).text ≠ "Unstable" := by
  have hinv : (SocketService.run actions).isConnected = true →
      (SocketService.run actions).reconnectAttempts = 0 :=
    foldl_invariant actions SocketService.new (fun h => absurd h (by decide))
  refine ⟨hinv, ?_⟩
  intro transport
  unfold getNetworkQuality
  cases hc : (SocketService.run actions).isConnected with
  | false => simp
  | true =>
    have h0 := hinv hc
    by_cases ht : transport = "websocket"
    · simp [h0, ht]
    · simp [h0, ht]

/-! ## Network detection: lemmas -/

theorem mem_candidatesOf (name : String) (c : Candidate) :
    ∀ ifaces : List NetworkAddress, c ∈ candidatesOf name ifaces ↔
      ∃ iface ∈ ifaces, (iface.family = "IPv4" ∧ iface.internal = false) ∧
        c = { name := name, address := iface.address,
              priority := getPriority iface.address name } := by
  intro ifaces
  induction ifaces with
  | nil => simp [candidatesOf]
  | cons a rest ih =>
    by_cases h : a.family = "IPv4" ∧ a.internal = false
    · simp only [candidatesOf, if_pos h, List.mem_cons, ih]
      constructor
      · rintro (e | ⟨iface, hi, hc⟩)
        · exact ⟨a, Or.inl rfl, h, e⟩
        · exact ⟨iface, Or.inr hi, hc⟩
      · rintro ⟨iface, hi | hi, hc⟩
        · left; rw [← hi]; exact hc.2
        · right; exact ⟨iface, hi, hc⟩
    · simp only [candidatesOf, if_neg h, List.mem_cons, ih]
      constructor
      · rintro ⟨iface, hi, hc⟩
        exact ⟨iface, Or.inr hi, hc⟩
      · rintro ⟨iface, hi | hi, hc⟩
        · rw [hi] at hc; exact absurd hc.1 h
        · exact ⟨iface, hi, hc⟩

theorem mem_candidates (c : Candidate) :
    ∀ interfaces : InterfaceTable, c ∈ candidates interfaces ↔
      ∃ e ∈ interfaces, ∃ iface ∈ e.2, (iface.family = "IPv4" ∧ iface.internal = false) ∧
        c = { name := e.1, address := iface.address,
              priority := getPriority iface.address e.1 } := by
  intro interfaces
  induction interfaces with
  | nil => simp [candidates]
  | cons a rest ih =>
    obtain ⟨name, ifaces⟩ := a
    simp only [candidates, List.mem_append, mem_candidatesOf, ih, List.mem_cons]
    constructor
    · rintro (h | ⟨e, he, h⟩)
      · exact ⟨(name, ifaces), Or.inl rfl, h⟩
      · exact ⟨e, Or.inr he, h⟩
    · rintro ⟨e, he | he, h⟩
      · left; rw [he] at h; exact h
      · right; exact ⟨e, he, h⟩

theorem sortCandidates_head (l : List Candidate) (hne : l ≠ []) :
    ∃ first tail before after, sortCandidates l = first :: tail
      ∧ l = before ++ first :: after
      ∧ (∀ c ∈ before, c.priority < first.priority)
      ∧ (∀ c ∈ after, c.priority ≤ first.priority) := by
  induction l with
  | nil => exact absurd rfl hne
  | cons a rest ih =>
    cases hrest : rest with
    | nil =>
      exact ⟨a, [], [], [], rfl, rfl, fun c hc => absurd hc (by simp),
        fun c hc => absurd hc (by simp)⟩
    | cons b rest' =>
      have hne' : rest ≠ [] := by rw [hrest]; simp
      obtain ⟨h', tail', pre', post', hs, hl, hpre, hpost⟩ := ih hne'
      rw [← hrest]
      by_cases hcmp : (h'.priority : Int) - (a.priority : Int) ≤ 0
      · refine ⟨a, h' :: tail', [], rest, ?_, rfl, fun c hc => absurd hc (by simp), ?_⟩
        · simp only [sortCandidates, hs, insertCandidate, if_pos hcmp]
        · intro c hc
          rw [hl] at hc
          rcases List.mem_append.1 hc with h1 | h1
          · have := hpre c h1
            omega
          · rcases List.mem_cons.1 h1 with h2 | h2
            · rw [h2]; omega
            · have := hpost c h2
              omega
      · refine ⟨h', insertCandidate a tail', a :: pre', post', ?_, ?_, ?_, hpost⟩
        · simp only [sortCandidates, hs, insertCandidate, if_neg hcmp]
        · rw [hl]; rfl
        · intro c hc
          rcases List.mem_cons.1 hc with h1 | h1
          · rw [h1]; omega
          · exact hpre c h1

theorem getLocalNetworkIP_nil (interfaces : InterfaceTable) (h : candidates interfaces = []) :
    getLocalNetworkIP interfaces = "localhost" := by
  simp [getLocalNetworkIP, h, sortCandidates]

/-! ## C24 -/

/-- C24. For every interface table whose addresses are IP literals (none is the
word `localhost`): the server's `getLocalNetworkIP` returns `localhost` exactly
when the table has no IPv4 address that is not internal; otherwise it returns the
address of the first-enumerated candidate of maximal priority, every
candidate before it having a strictly smaller priority and every candidate
after it a priority not greater. The priority of a candidate is `getPriority`
of its address and interface name: 100 for an address starting with
`192.168.`, else 90 for `10.`, else 80 for `172.`, else 70 for an interface name
holding `wifi` or `wireless`, else 60 for one holding `ethernet` or `eth`,
else 50. -/
theorem C24_getLocalNetworkIP (interfaces : InterfaceTable)
    (hip : ∀ e ∈ interfaces, ∀ iface ∈ e.2, iface.address ≠ "localhost") :
    (getLocalNetworkIP interfaces = "localhost" ↔
      ∀ e ∈ interfaces, ∀ iface ∈ e.2, ¬ (iface.family = "IPv4" ∧ iface.internal = false))
    ∧ (candidates interfaces ≠ [] →
        ∃ first before after, candidates interfaces = before ++ first :: after
          ∧ (∀ c ∈ before, c.priority < first.priority)
          ∧ (∀ c ∈ after, c.priority ≤ first.priority)
          ∧ getLocalNetworkIP interfaces = first.address)
    ∧ (∀ c ∈ candidates interfaces, c.priority = getPriority c.address c.name)
    ∧ ∀ address name : String,
        (startsWith address "192.168." = true → getPriority address name = 100)
        ∧ (startsWith address "192.168." = false → startsWith address "10." = true →
            getPriority address name = 90)
        ∧ (startsWith address "192.168." = false → startsWith address "10." = false →
            startsWith address "172." = true → getPriority address name = 80)
        ∧ (startsWith address "192.168." = false → startsWith address "10." = false →
            startsWith address "172." = false →
            ((includes (toLowerCase name) "wifi" || includes (toLowerCase name) "wireless")
                = true → getPriority address name = 70)
            ∧ ((includes (toLowerCase name) "wifi" || includes (toLowerCase name) "wireless")
                = false →
              ((includes (toLowerCase name) "ethernet" || includes (toLowerCase name) "eth")
                  = true → getPriority address name = 60)
              ∧ ((includes (toLowerCase name) "ethernet" || includes (toLowerCase name) "eth")
                  = false → getPriority address name = 50))) := by
  have hfirst : candidates interfaces ≠ [] →
      ∃ first before after, candidates interfaces = before ++ first :: after
        ∧ (∀ c ∈ before, c.priority < first.priority)
        ∧ (∀ c ∈ after, c.priority ≤ first.priority)
        ∧ getLocalNetworkIP interfaces = first.address := by
    intro hne
    obtain ⟨first, tail, before, after, hs, hl, hb, ha⟩ :=
      sortCandidates_head (candidates interfaces) hne
    exact ⟨first, before, after, hl, hb, ha, by simp only [getLocalNetworkIP, hs]⟩
  have hempty : candidates interfaces = [] ↔
      ∀ e ∈ interfaces, ∀ iface ∈ e.2, ¬ (iface.family = "IPv4" ∧ iface.internal = false) := by
    constructor
    · intro hnil e he iface hi hc
      have : ({ name := e.1, address := iface.address,
                priority := getPriority iface.address e.1 } : Candidate)
          ∈ candidates interfaces :=
        (mem_candidates _ interfaces).2 ⟨e, he, iface, hi, hc, rfl⟩
      rw [hnil] at this
      exact absurd this (by simp)
    · intro hall
      apply List.eq_nil_iff_forall_not_mem.2
      intro c hc
      obtain ⟨e, he, iface, hi, hcond, _⟩ := (mem_candidates c interfaces).1 hc
      exact hall e he iface hi hcond
  refine ⟨?_, hfirst, ?_, ?_⟩
  · constructor
    · intro hloc
      by_contra hsome
      have hne : candidates interfaces ≠ [] := fun hnil => hsome (hempty.1 hnil)
      obtain ⟨first, before, after, hl, _, _, hres⟩ := hfirst hne
      have hmem : first ∈ candidates interfaces := by rw [hl]; simp
      obtain ⟨e, he, iface, hi, _, hc⟩ := (mem_candidates first interfaces).1 hmem
      have haddr : first.address = iface.address := by rw [hc]
      exact hip e he iface hi (by rw [← haddr, ← hres, hloc])
    · intro hall
      exact getLocalNetworkIP_nil interfaces (hempty.2 hall)
  · intro c hc
    obtain ⟨e, _, iface, _, _, hceq⟩ := (mem_candidates c interfaces).1 hc
    rw [hceq]
  · intro address name
    refine ⟨?_, ?_, ?_, ?_⟩
    · intro h1; simp [getPriority, h1]
    · intro h1 h2; simp [getPriority, h1, h2]
    · intro h1 h2 h3; simp [getPriority, h1, h2, h3]
    · intro h1 h2 h3
      refine ⟨?_, ?_⟩
      · intro h4
        simp only [getPriority, h1, h2, h3, Bool.false_eq_true, if_false, h4, if_true]
      · intro h4
        refine ⟨?_, ?_⟩
        · intro h5
          simp only [getPriority, h1, h2, h3, Bool.false_eq_true, if_false, h4, h5, if_true]
        · intro h5
          simp only [getPriority, h1, h2, h3, Bool.false_eq_true, if_false, h4, h5]

/-- C24: an instance, a host with the wired address `10.0.0.5` enumerated before
the wireless address `192.168.1.5`: the latter has the greater priority and is
returned. -/
theorem C24_getLocalNetworkIP_witness :
    (∀ e ∈ sampleInterfaces, ∀ iface ∈ e.2, iface.address ≠ "localhost")
    ∧ (getLocalNetworkIP sampleInterfaces = "localhost" ↔
        ∀ e ∈ sampleInterfaces, ∀ iface ∈ e.2,
          ¬ (iface.family = "IPv4" ∧ iface.internal = false))
    ∧ (candidates sampleInterfaces ≠ [] →
        ∃ first before after, candidates sampleInterfaces = before ++ first :: after
          ∧ (∀ c ∈ before, c.priority < first.priority)
          ∧ (∀ c ∈ after, c.priority ≤ first.priority)
          ∧ getLocalNetworkIP sampleInterfaces = first.address)
    ∧ candidates sampleInterfaces
        = [{ name := "eth0", address := "10.0.0.5", priority := 90 },
           { name := "wlan0", address := "192.168.1.5", priority := 100 }]
    ∧ getLocalNetworkIP sampleInterfaces = "192.168.1.5" :=
  ⟨by decide, (C24_getLocalNetworkIP sampleInterfaces (by decide)).1,
    (C24_getLocalNetworkIP sampleInterfaces (by decide)).2.1, by decide, by decide⟩

/-! ## C25 -/

/-- C25, the code at a failing input. On a host whose wired address `10.0.0.5` is
enumerated before its wireless address `192.168.1.5`, the server detects
`192.168.1.5` and advertises `http://192.168.1.5:3000` for `VITE_API_URL`, while
the configure-network script, which takes the first candidate whatever its
priority, detects `10.0.0.5` and writes `VITE_API_URL=http://10.0.0.5:3000`. -/
theorem C25_script_and_server_disagree :
    getLocalNetworkIP sampleInterfaces = "192.168.1.5"
    ∧ ConfigureNetwork.getLocalNetworkIP sampleInterfaces = "10.0.0.5"
    ∧ advertisedUrl sampleInterfaces "3000" = "http://192.168.1.5:3000"
    ∧ ConfigureNetwork.envLine sampleInterfaces "3000" = "VITE_API_URL=http://10.0.0.5:3000" := by
  decide

end FileTransfer
